import Mathlib

/-! AEGIS wildfire simulation kernel (`src/app.js`)

A shallow embedding of the fire-simulation core of `app.js`:
`startFireAtPoint`, `runFireSimulationStep`, `startSimulation`, `stopSimulation`,
the ingestion of the parsed rows in `loadCriticalityDataAndSetupSimulation`, and
the module-level state they read and write.

Modelling conventions.

* JavaScript numbers that hold coordinates, criticalities, wind values and random
  draws are elements of an arbitrary linearly ordered field `α` with a floor
  function (`ℚ` for evaluation, `ℝ` where trigonometry is needed); arithmetic is
  exact, so rounding, `NaN` and infinities are outside the model.
* `Math.cos`, `Math.sin`, `Math.sqrt` and `Math.PI` are supplied by a `JsMath α`
  record; `Math.max`/`Math.min` are `max`/`min`.
* `Math.random()` is a stream `draws : Nat → α` read at a running position, so the
  short-circuit in `final > 0 && Math.random() < final` is kept: a draw is consumed
  only when the left operand is true.
* Object references into `criticalityPoints` are indices into the list.
* `criticalityIndex` is the KDBush index (an external library): its `within`
  query is a function from `(x, y, r)` to a list of indices, `none` when the
  index was not built.
* `burnTimeRemaining` and `currentSimulationTimeStep` only ever hold integers.
* Map rendering (`updateFireVisualization`), logging and alerts do not touch the
  modelled state and are left out.
-/

namespace AEGIS

/-! ## Constants (`app.js` lines 26-40) -/

section Constants

variable {α : Type} [LinearOrderedField α]

def MAX_BURN_DURATION_STEPS : Int := 5

def NEIGHBOR_SEARCH_RADIUS_DEGREES : α := 0.0006

def INITIAL_FIRE_STARTS : Nat := 3

def MINIMUM_EFFECTIVE_CRITICALITY_FOR_SPREAD : α := 0.525

def WIND_EFFECT_SCALER : α := 0.075

def MAX_WIND_BONUS_FACTOR : α := 0.9

def MAX_UPWIND_PENALTY_FACTOR_RATIO : α := 1.6

end Constants

/-! ## Data model -/

/-- The three burn states of a point, as `updateFireVisualization` classifies
them: `isBurning` wins, then `isBurntOut`, else the point is unburnt. -/
inductive BurnState where
  | Unburnt
  | Burning
  | BurntOut
  deriving DecidableEq, Repr

/-- One element of `criticalityPoints` (`app.js` lines 364-367). -/
structure CriticalityPoint (α : Type) where
  id : Nat
  lat : α
  lng : α
  K : α
  isBurning : Bool
  burnTimeRemaining : Int
  isBurntOut : Bool
  deriving DecidableEq

/-- Burn state of a point: `p.isBurning ? 'burning' : 'burnt_out'` for the points
with `isBurning || isBurntOut` (line 503), unburnt otherwise. -/
def CriticalityPoint.state {α : Type} (p : CriticalityPoint α) : BurnState :=
  if p.isBurning then BurnState.Burning
  else if p.isBurntOut then BurnState.BurntOut
  else BurnState.Unburnt

/-- The numeric library functions the step calls on `Math`. -/
structure JsMath (α : Type) where
  cos : α → α
  sin : α → α
  sqrt : α → α
  PI : α

/-- The module-level variables of `app.js` used by the simulation core. -/
structure SimState (α : Type) where
  criticalityPoints : List (CriticalityPoint α)
  criticalityIndex : Option (α → α → α → List Nat)
  globalWindSpeedMps : α
  globalWindDirectionDegrees : Option α
  simulationInterval : Bool
  windParticleAnimationId : Bool
  currentSimulationTimeStep : Nat

/-! ## Operations that do no arithmetic -/

section Plain

variable {α : Type}

/-- The local variables of one `runFireSimulationStep` call that the `forEach`
callbacks update: the point objects, `newFiresThisStep` (references, as indices)
and the number of `Math.random()` calls made so far. -/
structure StepAcc (α : Type) where
  points : List (CriticalityPoint α)
  newFiresThisStep : List Nat
  rng : Nat

/-- Whether `newFiresThisStep.some(p => p.id === id)` (line 473). -/
def someWithId (points : List (CriticalityPoint α)) (newFires : List Nat) (id : Nat) : Bool :=
  newFires.any fun j =>
    match points[j]? with
    | some p => p.id == id
    | none => false

/-- Lines 483-487: the callback of `newFiresThisStep.forEach`. -/
def ignitePoint (points : List (CriticalityPoint α)) (j : Nat) : List (CriticalityPoint α) :=
  match points[j]? with
  | none => points
  | some pointToIgnite =>
    if pointToIgnite.isBurning = false ∧ pointToIgnite.isBurntOut = false then
      points.set j { pointToIgnite with isBurning := true,
                                        burnTimeRemaining := MAX_BURN_DURATION_STEPS }
    else points

/-- Lines 530-533: `stopSimulation`. -/
def stopSimulation (s : SimState α) : SimState α :=
  { s with simulationInterval := false, windParticleAnimationId := false }

/-- Lines 413-418: `startFireAtPoint`; the argument is a reference into the field
(`none` for `undefined`). -/
def startFireAtPoint (points : List (CriticalityPoint α)) (pointObject : Option Nat) :
    List (CriticalityPoint α) :=
  match pointObject with
  | none => points
  | some j =>
    match points[j]? with
    | none => points
    | some p =>
      if p.isBurning = false ∧ p.isBurntOut = false then
        points.set j { p with isBurning := true, burnTimeRemaining := MAX_BURN_DURATION_STEPS }
      else points

/-- Lines 510-528: `startSimulation`. `shuffled` is the order of the references in
`shuffledPoints`, the result of sorting a copy of the field with the random
comparator. -/
def startSimulation (shuffled : List Nat) (s : SimState α) : SimState α :=
  if s.simulationInterval then s
  else if s.criticalityPoints.length = 0 then s
  else if s.criticalityIndex.isNone then s
  else
    let reset := s.criticalityPoints.map fun p =>
      { p with isBurning := false, isBurntOut := false, burnTimeRemaining := 0 }
    let seeded := (List.range (min INITIAL_FIRE_STARTS shuffled.length)).foldl
      (fun (st : List (CriticalityPoint α) × Nat) i => (startFireAtPoint st.1 shuffled[i]?, st.2 + 1))
      (reset, 0)
    let points :=
      if seeded.2 = 0 ∧ s.criticalityPoints.length > 0 then startFireAtPoint seeded.1 (some 0)
      else seeded.1
    { s with currentSimulationTimeStep := 0, criticalityPoints := points,
             simulationInterval := true }

/-- What the `criticalityPoints.forEach` callback does to the point it visits
(lines 427-431): a burning point is decremented and burns out at `≤ 0`. -/
def burnDown (p : CriticalityPoint α) : CriticalityPoint α :=
  if p.isBurning then
    if p.burnTimeRemaining - 1 ≤ 0 then
      { p with burnTimeRemaining := p.burnTimeRemaining - 1, isBurning := false,
               isBurntOut := true }
    else { p with burnTimeRemaining := p.burnTimeRemaining - 1 }
  else p

/-- What the `newFiresThisStep.forEach` pass does to the point at position `j`
(lines 484-486) when `fires` is the list of nominated references. -/
def igniteIf (fires : List Nat) (j : Nat) (p : CriticalityPoint α) : CriticalityPoint α :=
  if j ∈ fires ∧ p.isBurning = false ∧ p.isBurntOut = false then
    { p with isBurning := true, burnTimeRemaining := MAX_BURN_DURATION_STEPS }
  else p

end Plain

/-! ## The spread rule and the step -/

section Core

variable {α : Type} [LinearOrderedField α] [FloorRing α]

/-- Truncation toward zero, as used by the JavaScript remainder. -/
def jsTrunc (x : α) : Int := if 0 ≤ x then ⌊x⌋ else ⌈x⌉

/-- The JavaScript `%` on numbers: the remainder has the sign of the dividend. -/
def jsRem (a b : α) : α := a - b * (jsTrunc (a / b) : α)

/-- Lines 452-453: `cosAngleDiff` for the spread vector `(dx, dy)`. -/
def cosAngleDiff (M : JsMath α) (windDir dx dy : α) : α :=
  let spreadDistSq := dx * dx + dy * dy
  let spreadDist := M.sqrt spreadDistSq
  let windBlowsTowardMathAngleRad := jsRem (270 - windDir + 360) 360 * M.PI / 180
  (dx * M.cos windBlowsTowardMathAngleRad + dy * M.sin windBlowsTowardMathAngleRad) / spreadDist

/-- Line 455: `rawWindInfluence`. -/
def rawWindInfluence (M : JsMath α) (windSpeed windDir dx dy : α) : α :=
  cosAngleDiff M windDir dx dy * windSpeed * WIND_EFFECT_SCALER

/-- Lines 456-464: `cappedWindInfluence` as a function of `rawWindInfluence`. -/
def cappedWindInfluence (raw : α) : α :=
  if raw ≥ 0 then min MAX_WIND_BONUS_FACTOR raw
  else
    let maxPenalty : α := MAX_WIND_BONUS_FACTOR * MAX_UPWIND_PENALTY_FACTOR_RATIO
    max (-maxPenalty) raw

/-- Line 437: `baseEffectiveCriticality` of a candidate with criticality `K` at
clock value `t`. -/
def baseEffectiveCriticality (K : α) (t : Nat) : α :=
  K * max 0.1 (1 - (t : α) * 0.003)

/-- Lines 437-470: `finalEffectiveCriticality` of the candidate `actualNeighbor`
seen from the burning `point`; `minCrit` is the spread threshold of line 441. -/
def finalEffectiveCriticality (M : JsMath α) (minCrit windSpeed : α) (windDir : Option α)
    (t : Nat) (point actualNeighbor : CriticalityPoint α) : α :=
  let base := baseEffectiveCriticality actualNeighbor.K t
  if base < minCrit then 0
  else
    match windDir with
    | none => base
    | some d =>
      if windSpeed > 0 then
        let dx := actualNeighbor.lng - point.lng
        let dy := actualNeighbor.lat - point.lat
        let spreadDistSq := dx * dx + dy * dy
        if spreadDistSq > 0 then
          max 0 (min 1 (base + cappedWindInfluence (rawWindInfluence M windSpeed d dx dy)))
        else base
      else base

/-- Lines 433-476: the callback of `neighborIndices.forEach` for one `index`. -/
def processNeighbor (M : JsMath α) (minCrit windSpeed : α) (windDir : Option α) (t : Nat)
    (draws : Nat → α) (point : CriticalityPoint α) (acc : StepAcc α) (index : Nat) :
    StepAcc α :=
  match acc.points[index]? with
  | none => acc
  | some actualNeighbor =>
    if actualNeighbor.id ≠ point.id ∧ actualNeighbor.isBurning = false
        ∧ actualNeighbor.isBurntOut = false then
      let final := finalEffectiveCriticality M minCrit windSpeed windDir t point actualNeighbor
      if final > 0 then
        if draws acc.rng < final then
          if someWithId acc.points acc.newFiresThisStep actualNeighbor.id then
            { acc with rng := acc.rng + 1 }
          else
            { acc with rng := acc.rng + 1, newFiresThisStep := acc.newFiresThisStep ++ [index] }
        else { acc with rng := acc.rng + 1 }
      else acc
    else acc

/-- Lines 426-479: the callback of `criticalityPoints.forEach` for the point at
position `i`. -/
def processPoint (M : JsMath α) (minCrit windSpeed : α) (windDir : Option α) (t : Nat)
    (draws : Nat → α) (within : α → α → α → List Nat) (acc : StepAcc α) (i : Nat) :
    StepAcc α :=
  match acc.points[i]? with
  | none => acc
  | some point =>
    if point.isBurning then
      let point1 := { point with burnTimeRemaining := point.burnTimeRemaining - 1 }
      if point1.burnTimeRemaining ≤ 0 then
        { acc with points := acc.points.set i { point1 with isBurning := false, isBurntOut := true } }
      else
        let neighborIndices := within point1.lng point1.lat NEIGHBOR_SEARCH_RADIUS_DEGREES
        neighborIndices.foldl (processNeighbor M minCrit windSpeed windDir t draws point1)
          { acc with points := acc.points.set i point1 }
    else acc

/-- Lines 426-479: the whole `criticalityPoints.forEach` pass. -/
def burnPass (M : JsMath α) (minCrit : α) (draws : Nat → α) (within : α → α → α → List Nat)
    (s : SimState α) (t : Nat) : StepAcc α :=
  (List.range s.criticalityPoints.length).foldl
    (processPoint M minCrit s.globalWindSpeedMps s.globalWindDirectionDegrees t draws within)
    { points := s.criticalityPoints, newFiresThisStep := [], rng := 0 }

/-- Lines 420-496: `runFireSimulationStep`, with the spread threshold of line 441
as the argument `minCrit`. -/
def runFireSimulationStepWith (M : JsMath α) (minCrit : α) (draws : Nat → α)
    (s : SimState α) : SimState α :=
  match s.criticalityIndex with
  | none => stopSimulation s
  | some within =>
    let t := s.currentSimulationTimeStep + 1
    let acc := burnPass M minCrit draws within s t
    let points := acc.newFiresThisStep.foldl ignitePoint acc.points
    let s1 := { s with currentSimulationTimeStep := t, criticalityPoints := points }
    if (!points.any fun p => p.isBurning) ∧ t > 0 ∧ acc.newFiresThisStep.length = 0 then
      stopSimulation s1
    else s1

/-- Lines 420-496: `runFireSimulationStep`. -/
def runFireSimulationStep (M : JsMath α) (draws : Nat → α) (s : SimState α) : SimState α :=
  runFireSimulationStepWith M MINIMUM_EFFECTIVE_CRITICALITY_FOR_SPREAD draws s

/-- Modelled from the spec: the Spatial Index query of section 4.1 (the KDBush
library is not part of the sources): the indices of the points whose coordinates
lie within Euclidean distance `r` of `(x, y)`, boundary included. -/
def withinRadius (points : List (CriticalityPoint α)) (x y r : α) : List Nat :=
  (List.range points.length).filter fun i =>
    match points[i]? with
    | some p => decide ((p.lng - x) * (p.lng - x) + (p.lat - y) * (p.lat - y) ≤ r * r)
    | none => false

/-- The reference `j` is a candidate that some burning point of `pts` that keeps
burning (`burnTimeRemaining > 1`) finds through the radius query, unburnt, with
another id and a positive final effective criticality. -/
def Nominated (M : JsMath α) (minCrit windSpeed : α) (windDir : Option α) (t : Nat)
    (within : α → α → α → List Nat) (pts : List (CriticalityPoint α)) (j : Nat) : Prop :=
  ∃ (i : Nat) (q p : CriticalityPoint α), pts[i]? = some q ∧ q.isBurning = true ∧ 1 < q.burnTimeRemaining
    ∧ j ∈ within q.lng q.lat NEIGHBOR_SEARCH_RADIUS_DEGREES
    ∧ pts[j]? = some p ∧ p.isBurning = false ∧ p.isBurntOut = false ∧ p.id ≠ q.id
    ∧ 0 < finalEffectiveCriticality M minCrit windSpeed windDir t
          { q with burnTimeRemaining := q.burnTimeRemaining - 1 } p

/-- One element of `results.data` as Papa Parse delivers it with `dynamicTyping`:
a field is `some x` when its value has type `number`, `none` otherwise. -/
structure Row (α : Type) where
  lat : Option α
  long : Option α
  K : Option α

/-- Lines 363-373: the callback of `results.data.map`; `none` is the `null` it
returns for a row with a field that is not a number. -/
def rowToPoint (row : Row α) (index : Nat) : Option (CriticalityPoint α) :=
  match row.lat, row.long, row.K with
  | some lat, some lng, some K =>
    some { id := index, lat := lat, lng := lng, K := max 0 (min 1 K),
           isBurning := false, burnTimeRemaining := 0, isBurntOut := false }
  | _, _, _ => none

/-- Lines 363-373: `results.data.map(...).filter(p => p !== null)`, the value
assigned to `criticalityPoints`. -/
def ingestRows (rows : List (Row α)) : List (CriticalityPoint α) :=
  (rows.mapIdx fun index row => rowToPoint row index).reduceOption

/-- Lines 102-134: `fetchSimulationWindData`. `response` is `data.wind` after
`parseFloat` of its `speed` and `deg` (`none` for `NaN`), or `none` when the
request fails or the response has no `wind`: the speed is `parseFloat(speed) || 0`,
a `NaN` direction becomes `null`, and without data the wind is reset to 0 and
`null`. -/
def fetchSimulationWindData (response : Option (Option α × Option α)) (s : SimState α) :
    SimState α :=
  match response with
  | some (speed, deg) =>
    { s with globalWindSpeedMps := speed.getD 0, globalWindDirectionDegrees := deg }
  | none => { s with globalWindSpeedMps := 0, globalWindDirectionDegrees := none }

/-- Lines 342-403: the `complete` callback of `loadCriticalityDataAndSetupSimulation`
for a parse without errors; `kdbush` is the constructor of the spatial index,
`none` when it throws, and `response` what the wind request of line 401 receives.
Each rejection returns before the steps that follow it. -/
def loadCriticalityDataAndSetupSimulation
    (kdbush : List (CriticalityPoint α) → Option (α → α → α → List Nat))
    (response : Option (Option α × Option α))
    (rows : List (Row α)) (s : SimState α) : SimState α :=
  if rows.length = 0 then s
  else
    let s1 := { s with criticalityPoints := ingestRows rows }
    if s1.criticalityPoints.length = 0 then s1
    else
      match kdbush s1.criticalityPoints with
      | none => { s1 with criticalityIndex := none }
      | some index => fetchSimulationWindData response { s1 with criticalityIndex := some index }

/-- One timer tick as the step sees it: the wind values in force (they may have
been replaced by `fetchSimulationWindData` since the last tick) and the random
draws the step will read. -/
structure Tick (α : Type) where
  windSpeed : α
  windDirection : Option α
  draws : Nat → α

/-- The timer of `startSimulation` calling `runFireSimulationStep` once per tick. -/
def runTicks (M : JsMath α) : List (Tick α) → SimState α → SimState α
  | [], s => s
  | tk :: rest, s =>
    runTicks M rest
      (runFireSimulationStep M tk.draws
        { s with globalWindSpeedMps := tk.windSpeed,
                 globalWindDirectionDegrees := tk.windDirection })

/-- The interval timer of line 527: a tick calls `runFireSimulationStep` only while
the timer is installed; once `stopSimulation` has cleared it no further tick
arrives. -/
def runTimer (M : JsMath α) : List (Tick α) → SimState α → SimState α
  | [], s => s
  | tk :: rest, s =>
    if s.simulationInterval then
      runTimer M rest
        (runFireSimulationStep M tk.draws
          { s with globalWindSpeedMps := tk.windSpeed,
                   globalWindDirectionDegrees := tk.windDirection })
    else s

/-- The largest `burnTimeRemaining` a burning point can have at clock value `t`:
no ignition happens after step 158, so the bound shrinks from there. -/
def burnTimeCap (t : Nat) : Int :=
  if t ≤ 158 then MAX_BURN_DURATION_STEPS else 163 - (t : Int)

/-- What holds throughout a run whose field has criticalities at most 1: the index
is built, burning points have between 1 and `burnTimeCap` steps left, the clock is
at most 163, and while the timer is installed either no step has run yet or some
point burns. -/
def RunInvariant (s : SimState α) : Prop :=
  s.criticalityIndex.isSome = true ∧
  (∀ p ∈ s.criticalityPoints, p.K ≤ 1) ∧
  (∀ p ∈ s.criticalityPoints, p.isBurning = true →
    1 ≤ p.burnTimeRemaining ∧ p.burnTimeRemaining ≤ burnTimeCap s.currentSimulationTimeStep) ∧
  s.currentSimulationTimeStep ≤ 163 ∧
  (s.simulationInterval = true →
    s.currentSimulationTimeStep = 0 ∨ ∃ p ∈ s.criticalityPoints, p.isBurning = true)

/-- Every burning point of the field has between `1` and
`MAX_BURN_DURATION_STEPS` steps left. -/
def BurnTimesInRange (pts : List (CriticalityPoint α)) : Prop :=
  ∀ p ∈ pts, p.isBurning = true →
    1 ≤ p.burnTimeRemaining ∧ p.burnTimeRemaining ≤ MAX_BURN_DURATION_STEPS

end Core

/-! ## A concrete field: five points on a line, 0.0001 degrees apart -/

section Scenario

/-- A stand-in for `Math` over `ℚ`; the scenarios below run without wind, so the
step never reads it. -/
def testMath : JsMath ℚ := ⟨fun _ => 1, fun _ => 0, fun x => x, 3⟩

/-- The point at position `i` of the line, with criticality `K`. -/
def linePoint (i : Nat) (K : ℚ) (burning : Bool) (burnTime : Int) : CriticalityPoint ℚ :=
  { id := i, lat := 0, lng := (i : ℚ) * 0.0001, K := K,
    isBurning := burning, burnTimeRemaining := burnTime, isBurntOut := false }

/-- Five points on a line; the first one burns with `burnTime` steps left, its
immediate neighbour has criticality `1`, the third point criticality `0.5`. -/
def lineField (burnTime : Int) : List (CriticalityPoint ℚ) :=
  [linePoint 0 1 true burnTime, linePoint 1 1 false 0, linePoint 2 0.5 false 0,
   linePoint 3 1 false 0, linePoint 4 1 false 0]

/-- The line field with its spatial index, no wind, the timer running, clock `0`. -/
def lineState (burnTime : Int) : SimState ℚ :=
  { criticalityPoints := lineField burnTime,
    criticalityIndex := some (withinRadius (lineField burnTime)),
    globalWindSpeedMps := 0, globalWindDirectionDegrees := none,
    simulationInterval := true, windParticleAnimationId := false,
    currentSimulationTimeStep := 0 }

/-- The line field before any run: nothing burns and no timer is installed. -/
def idleLineState : SimState ℚ :=
  { criticalityPoints := (lineField 0).map fun p => { p with isBurning := false },
    criticalityIndex := some (withinRadius (lineField 0)),
    globalWindSpeedMps := 0, globalWindDirectionDegrees := none,
    simulationInterval := false, windParticleAnimationId := false,
    currentSimulationTimeStep := 0 }

end Scenario

/-! ## Lemmas about the passes of one step -/

section PointwiseLemmas

variable {α : Type}

theorem burnDown_of_not_burning (p : CriticalityPoint α) (h : p.isBurning = false) :
    burnDown p = p := by
  simp [burnDown, h]

theorem burnDown_unburnt (p : CriticalityPoint α) (h1 : (burnDown p).isBurning = false)
    (h2 : (burnDown p).isBurntOut = false) :
    p.isBurning = false ∧ p.isBurntOut = false ∧ burnDown p = p := by
  unfold burnDown at h1 h2
  by_cases hb : p.isBurning = true
  · rw [if_pos hb] at h1 h2
    split_ifs at h1 h2
    all_goals simp_all
  · have hb' : p.isBurning = false := by simpa using hb
    rw [if_neg hb] at h2
    exact ⟨hb', h2, burnDown_of_not_burning p hb'⟩

theorem igniteIf_cons (a : Nat) (l : List Nat) (j : Nat) (p : CriticalityPoint α) :
    igniteIf l j (igniteIf [a] j p) = igniteIf (a :: l) j p := by
  unfold igniteIf
  by_cases hb : p.isBurning = false ∧ p.isBurntOut = false
  · by_cases hja : j = a
    · simp [hja, hb]
    · simp [hja, hb]
  · have h1 : ¬ (j ∈ [a] ∧ p.isBurning = false ∧ p.isBurntOut = false) := fun h => hb h.2
    have h2 : ¬ (j ∈ a :: l ∧ p.isBurning = false ∧ p.isBurntOut = false) := fun h => hb h.2
    have h3 : ¬ (j ∈ l ∧ p.isBurning = false ∧ p.isBurntOut = false) := fun h => hb h.2
    rw [if_neg h1, if_neg h2, if_neg h3]

theorem ignitePoint_getElem? (pts : List (CriticalityPoint α)) (a j : Nat) :
    (ignitePoint pts a)[j]? = (pts[j]?).map (igniteIf [a] j) := by
  unfold ignitePoint
  split
  · rename_i hnone
    by_cases hja : j = a
    · subst hja; simp [hnone]
    · rcases pts[j]? with _ | p
      · rfl
      · simp [igniteIf, hja]
  · rename_i q hq
    have hlt : a < pts.length := (List.getElem?_eq_some_iff.1 hq).1
    by_cases hja : j = a
    · subst hja
      split_ifs with hu
      · simp [hq, igniteIf, hu, hlt]
      · simp [hq, igniteIf, hu]
    · have hne : ¬ (j ∈ [a]) := by simpa using hja
      split_ifs with hu
      · rw [List.getElem?_set_ne (Ne.symm hja)]
        rcases pts[j]? with _ | p
        · rfl
        · simp [igniteIf, hja]
      · rcases pts[j]? with _ | p
        · rfl
        · simp [igniteIf, hja]

theorem foldl_ignitePoint_getElem? (l : List Nat) (pts : List (CriticalityPoint α)) (j : Nat) :
    (l.foldl ignitePoint pts)[j]? = (pts[j]?).map (igniteIf l j) := by
  induction l generalizing pts with
  | nil =>
    rw [List.foldl_nil]
    cases h : pts[j]? with
    | none => rfl
    | some p => simp [igniteIf]
  | cons a l ih =>
    rw [List.foldl_cons, ih, ignitePoint_getElem?]
    cases h : pts[j]? with
    | none => rfl
    | some p => simp [igniteIf_cons]

theorem stopSimulation_points (s : SimState α) :
    (stopSimulation s).criticalityPoints = s.criticalityPoints := rfl

end PointwiseLemmas

section NeighbourLemmas

variable {α : Type} [LinearOrderedField α] [FloorRing α]

theorem processNeighbor_points (M : JsMath α) (minCrit windSpeed : α) (windDir : Option α)
    (t : Nat) (draws : Nat → α) (point : CriticalityPoint α) (acc : StepAcc α) (index : Nat) :
    (processNeighbor M minCrit windSpeed windDir t draws point acc index).points = acc.points := by
  unfold processNeighbor
  split
  · rfl
  · dsimp only
    split_ifs <;> rfl

theorem foldl_processNeighbor_points (M : JsMath α) (minCrit windSpeed : α)
    (windDir : Option α) (t : Nat) (draws : Nat → α) (point : CriticalityPoint α)
    (l : List Nat) (acc : StepAcc α) :
    (l.foldl (processNeighbor M minCrit windSpeed windDir t draws point) acc).points
      = acc.points := by
  induction l generalizing acc with
  | nil => rfl
  | cons a l ih => rw [List.foldl_cons, ih, processNeighbor_points]

theorem processNeighbor_newFires (M : JsMath α) (minCrit windSpeed : α) (windDir : Option α)
    (t : Nat) (draws : Nat → α) (point : CriticalityPoint α) (acc : StepAcc α) (index j : Nat)
    (h : j ∈ (processNeighbor M minCrit windSpeed windDir t draws point acc index).newFiresThisStep) :
    j ∈ acc.newFiresThisStep ∨
      (j = index ∧ ∃ p, acc.points[j]? = some p ∧ p.id ≠ point.id ∧ p.isBurning = false
        ∧ p.isBurntOut = false
        ∧ 0 < finalEffectiveCriticality M minCrit windSpeed windDir t point p) := by
  unfold processNeighbor at h
  split at h
  · exact Or.inl h
  · rename_i p hp
    dsimp only at h
    split_ifs at h with h1 h2 h3 h4
    · exact Or.inl h
    · rcases List.mem_append.1 h with h | h
      · exact Or.inl h
      · right
        have hj : j = index := by simpa using h
        subst hj
        exact ⟨rfl, p, hp, h1.1, h1.2.1, h1.2.2, h2⟩
    · exact Or.inl h
    · exact Or.inl h
    · exact Or.inl h

theorem foldl_processNeighbor_newFires (M : JsMath α) (minCrit windSpeed : α)
    (windDir : Option α) (t : Nat) (draws : Nat → α) (point : CriticalityPoint α)
    (l : List Nat) (acc : StepAcc α) (j : Nat)
    (h : j ∈ (l.foldl (processNeighbor M minCrit windSpeed windDir t draws point) acc).newFiresThisStep) :
    j ∈ acc.newFiresThisStep ∨
      (j ∈ l ∧ ∃ p, acc.points[j]? = some p ∧ p.id ≠ point.id ∧ p.isBurning = false
        ∧ p.isBurntOut = false
        ∧ 0 < finalEffectiveCriticality M minCrit windSpeed windDir t point p) := by
  induction l generalizing acc with
  | nil => exact Or.inl h
  | cons a l ih =>
    rw [List.foldl_cons] at h
    rcases ih _ h with h | ⟨hm, p, hp, hrest⟩
    · rcases processNeighbor_newFires _ _ _ _ _ _ _ _ _ _ h with h | ⟨hj, hrest⟩
      · exact Or.inl h
      · exact Or.inr ⟨by simp [hj], hrest⟩
    · rw [processNeighbor_points] at hp
      exact Or.inr ⟨List.mem_cons_of_mem _ hm, p, hp, hrest⟩

end NeighbourLemmas

section BurnPassLemmas

variable {α : Type} [LinearOrderedField α] [FloorRing α]

theorem processPoint_points (M : JsMath α) (minCrit windSpeed : α) (windDir : Option α)
    (t : Nat) (draws : Nat → α) (within : α → α → α → List Nat) (acc : StepAcc α)
    (i j : Nat) :
    (processPoint M minCrit windSpeed windDir t draws within acc i).points[j]?
      = if j = i then (acc.points[i]?).map burnDown else acc.points[j]? := by
  unfold processPoint
  split
  · rename_i hnone
    split_ifs with hji
    · subst hji; simp [hnone]
    · rfl
  · rename_i point hp
    have hlt : i < acc.points.length := (List.getElem?_eq_some_iff.1 hp).1
    by_cases hb : point.isBurning = true
    · rw [if_pos hb]
      dsimp only
      split_ifs with h0 hji hji
      · subst hji
        simp [hp, burnDown, hb, h0, hlt]
      · simp [List.getElem?_set, Ne.symm hji]
      · subst hji
        rw [foldl_processNeighbor_points]
        simp [hp, burnDown, hb, h0, hlt]
      · rw [foldl_processNeighbor_points]
        simp [List.getElem?_set, Ne.symm hji]
    · rw [if_neg hb]
      split_ifs with hji
      · subst hji
        simp [hp, burnDown, hb]
      · rfl

theorem processPoint_newFires (M : JsMath α) (minCrit windSpeed : α) (windDir : Option α)
    (t : Nat) (draws : Nat → α) (within : α → α → α → List Nat) (acc : StepAcc α)
    (i j : Nat)
    (h : j ∈ (processPoint M minCrit windSpeed windDir t draws within acc i).newFiresThisStep) :
    j ∈ acc.newFiresThisStep ∨
      ∃ q p : CriticalityPoint α, acc.points[i]? = some q ∧ q.isBurning = true
        ∧ 1 < q.burnTimeRemaining
        ∧ j ∈ within q.lng q.lat NEIGHBOR_SEARCH_RADIUS_DEGREES
        ∧ acc.points[j]? = some p ∧ p.isBurning = false ∧ p.isBurntOut = false
        ∧ p.id ≠ q.id
        ∧ 0 < finalEffectiveCriticality M minCrit windSpeed windDir t
              { q with burnTimeRemaining := q.burnTimeRemaining - 1 } p := by
  unfold processPoint at h
  split at h
  · exact Or.inl h
  · rename_i point hp
    by_cases hb : point.isBurning = true
    · rw [if_pos hb] at h
      dsimp only at h
      split_ifs at h with h0
      · exact Or.inl h
      · rcases foldl_processNeighbor_newFires _ _ _ _ _ _ _ _ _ _ h with h | ⟨hm, p, hpj, hid, hnb, hnbo, hfin⟩
        · exact Or.inl h
        · right
          have hji : i ≠ j := by
            intro hij
            subst hij
            have hlt : i < acc.points.length := (List.getElem?_eq_some_iff.1 hp).1
            simp only [List.getElem?_set_self hlt, Option.some.injEq] at hpj
            rw [← hpj] at hnb
            simp [hb] at hnb
          simp only [List.getElem?_set_ne hji] at hpj
          exact ⟨point, p, hp, hb, by omega, hm, hpj, hnb, hnbo, hid, hfin⟩
    · rw [if_neg hb] at h
      exact Or.inl h

/-- After the callback has visited the positions below `k`, exactly those points
have been burnt down, and every reference in `newFiresThisStep` was nominated by a
point that was burning before the pass. -/
theorem burnLoop_invariant (M : JsMath α) (minCrit windSpeed : α) (windDir : Option α)
    (t : Nat) (draws : Nat → α) (within : α → α → α → List Nat)
    (pts : List (CriticalityPoint α)) (k : Nat) :
    (∀ j, ((List.range k).foldl (processPoint M minCrit windSpeed windDir t draws within)
            { points := pts, newFiresThisStep := [], rng := 0 }).points[j]?
          = if j < k then (pts[j]?).map burnDown else pts[j]?) ∧
    (∀ j, j ∈ ((List.range k).foldl (processPoint M minCrit windSpeed windDir t draws within)
            { points := pts, newFiresThisStep := [], rng := 0 }).newFiresThisStep →
          Nominated M minCrit windSpeed windDir t within pts j) := by
  induction k with
  | zero => simp
  | succ k ih =>
    obtain ⟨ihp, ihf⟩ := ih
    rw [List.range_succ, List.foldl_append, List.foldl_cons, List.foldl_nil]
    constructor
    · intro j
      rw [processPoint_points]
      split_ifs with h1 h2 h2
      · subst h1; rw [ihp]; simp
      · omega
      · rw [ihp, if_pos (by omega)]
      · rw [ihp, if_neg (by omega)]
    · intro j hj
      rcases processPoint_newFires _ _ _ _ _ _ _ _ _ _ hj with h | ⟨q, p, hq, hqb, hqt, hw, hp, hnb, hnbo, hid, hfin⟩
      · exact ihf j h
      · rw [ihp, if_neg (by omega)] at hq
        rw [ihp] at hp
        refine ⟨k, q, p, hq, hqb, hqt, hw, ?_, hnb, hnbo, hid, hfin⟩
        split_ifs at hp with hjk
        · rcases hpj : pts[j]? with _ | p0
          · simp [hpj] at hp
          · simp only [hpj, Option.map_some', Option.some.injEq] at hp
            subst hp
            obtain ⟨-, -, he⟩ := burnDown_unburnt p0 hnb hnbo
            rw [he]
        · exact hp

end BurnPassLemmas

section StepLemmas

variable {α : Type} [LinearOrderedField α] [FloorRing α]

theorem burnPass_points (M : JsMath α) (minCrit : α) (draws : Nat → α)
    (within : α → α → α → List Nat) (s : SimState α) (t j : Nat) :
    (burnPass M minCrit draws within s t).points[j]?
      = (s.criticalityPoints[j]?).map burnDown := by
  unfold burnPass
  rw [(burnLoop_invariant M minCrit s.globalWindSpeedMps s.globalWindDirectionDegrees t draws
        within s.criticalityPoints s.criticalityPoints.length).1 j]
  split_ifs with h
  · rfl
  · rw [List.getElem?_eq_none (by omega)]; rfl

theorem burnPass_newFires (M : JsMath α) (minCrit : α) (draws : Nat → α)
    (within : α → α → α → List Nat) (s : SimState α) (t j : Nat)
    (h : j ∈ (burnPass M minCrit draws within s t).newFiresThisStep) :
    Nominated M minCrit s.globalWindSpeedMps s.globalWindDirectionDegrees t within
      s.criticalityPoints j :=
  (burnLoop_invariant M minCrit s.globalWindSpeedMps s.globalWindDirectionDegrees t draws
    within s.criticalityPoints s.criticalityPoints.length).2 j h

/-- The points after one step, position by position. -/
theorem step_points (M : JsMath α) (minCrit : α) (draws : Nat → α) (s : SimState α) (j : Nat) :
    (runFireSimulationStepWith M minCrit draws s).criticalityPoints[j]?
      = match s.criticalityIndex with
        | none => s.criticalityPoints[j]?
        | some within =>
          (s.criticalityPoints[j]?).map fun p =>
            igniteIf (burnPass M minCrit draws within s
              (s.currentSimulationTimeStep + 1)).newFiresThisStep j (burnDown p) := by
  unfold runFireSimulationStepWith
  split
  · rfl
  · rename_i within hw
    dsimp only
    split_ifs
    · rw [stopSimulation_points]
      dsimp only
      rw [foldl_ignitePoint_getElem?, burnPass_points, Option.map_map]
      rfl
    · dsimp only
      rw [foldl_ignitePoint_getElem?, burnPass_points, Option.map_map]
      rfl

end StepLemmas

section StateLemmas

variable {α : Type}

theorem state_eq_burning_iff (p : CriticalityPoint α) :
    p.state = BurnState.Burning ↔ p.isBurning = true := by
  unfold CriticalityPoint.state
  split_ifs <;> simp_all

theorem state_eq_unburnt_iff (p : CriticalityPoint α) :
    p.state = BurnState.Unburnt ↔ p.isBurning = false ∧ p.isBurntOut = false := by
  unfold CriticalityPoint.state
  split_ifs <;> simp_all

theorem state_eq_burntOut_iff (p : CriticalityPoint α) :
    p.state = BurnState.BurntOut ↔ p.isBurning = false ∧ p.isBurntOut = true := by
  unfold CriticalityPoint.state
  split_ifs <;> simp_all

/-- The two passes move the state of a point forward only. -/
theorem state_igniteIf_burnDown (l : List Nat) (j : Nat) (p : CriticalityPoint α) :
    (p.state = BurnState.BurntOut → (igniteIf l j (burnDown p)).state = BurnState.BurntOut) ∧
    (p.state = BurnState.Burning →
      (igniteIf l j (burnDown p)).state = BurnState.Burning ∨
      (igniteIf l j (burnDown p)).state = BurnState.BurntOut) ∧
    (p.state = BurnState.Unburnt →
      (igniteIf l j (burnDown p)).state = BurnState.Unburnt ∨
      (igniteIf l j (burnDown p)).state = BurnState.Burning) := by
  simp only [state_eq_burning_iff, state_eq_unburnt_iff, state_eq_burntOut_iff]
  refine ⟨?_, ?_, ?_⟩
  · rintro ⟨h1, h2⟩
    simp [burnDown, igniteIf, h1, h2]
  · intro h1
    unfold burnDown igniteIf
    rw [if_pos h1]
    split_ifs <;> simp_all
  · rintro ⟨h1, h2⟩
    unfold burnDown igniteIf
    simp only [h1, h2]
    split_ifs <;> simp_all

end StateLemmas

section ForwardOnly

variable {α : Type} [LinearOrderedField α] [FloorRing α]

/-- C1: one call of `runFireSimulationStep` moves the state of every point forward
only: a BurntOut point stays BurntOut, a Burning point is Burning or BurntOut
afterwards, and an Unburnt point is Unburnt or Burning afterwards (never BurntOut
directly), for every field, wind, index and random draws. -/
theorem C1_step_moves_state_forward (M : JsMath α) (draws : Nat → α) (s : SimState α)
    (j : Nat) (p : CriticalityPoint α) (hp : s.criticalityPoints[j]? = some p) :
    ∃ p', (runFireSimulationStep M draws s).criticalityPoints[j]? = some p' ∧
      (p.state = BurnState.BurntOut → p'.state = BurnState.BurntOut) ∧
      (p.state = BurnState.Burning →
        p'.state = BurnState.Burning ∨ p'.state = BurnState.BurntOut) ∧
      (p.state = BurnState.Unburnt →
        p'.state = BurnState.Unburnt ∨ p'.state = BurnState.Burning) := by
  unfold runFireSimulationStep
  rw [step_points, hp]
  cases s.criticalityIndex with
  | none => exact ⟨p, rfl, id, Or.inl, Or.inl⟩
  | some within => exact ⟨_, rfl, state_igniteIf_burnDown _ j p⟩

theorem C1_step_moves_state_forward_witness :
    (lineState 2).criticalityPoints[0]? = some (linePoint 0 1 true 2) ∧
    ∃ p', (runFireSimulationStep testMath (fun _ => 0) (lineState 2)).criticalityPoints[0]?
        = some p' ∧
      ((linePoint 0 1 true 2).state = BurnState.BurntOut → p'.state = BurnState.BurntOut) ∧
      ((linePoint 0 1 true 2).state = BurnState.Burning →
        p'.state = BurnState.Burning ∨ p'.state = BurnState.BurntOut) ∧
      ((linePoint 0 1 true 2).state = BurnState.Unburnt →
        p'.state = BurnState.Unburnt ∨ p'.state = BurnState.Burning) :=
  ⟨rfl, C1_step_moves_state_forward testMath (fun _ => 0) (lineState 2) 0 _ rfl⟩

end ForwardOnly

section StartLemmas

variable {α : Type}

theorem igniteIf_burnDown_inRange (l : List Nat) (j : Nat) (p : CriticalityPoint α)
    (hp : p.isBurning = true →
      1 ≤ p.burnTimeRemaining ∧ p.burnTimeRemaining ≤ MAX_BURN_DURATION_STEPS)
    (hb : (igniteIf l j (burnDown p)).isBurning = true) :
    1 ≤ (igniteIf l j (burnDown p)).burnTimeRemaining ∧
      (igniteIf l j (burnDown p)).burnTimeRemaining ≤ MAX_BURN_DURATION_STEPS := by
  unfold igniteIf at hb ⊢
  split_ifs at hb ⊢ with h1
  · simp [MAX_BURN_DURATION_STEPS]
  · unfold burnDown at hb ⊢
    by_cases h2 : p.isBurning = true
    · have hr := hp h2
      rw [if_pos h2] at hb ⊢
      by_cases h3 : p.burnTimeRemaining - 1 ≤ 0
      · rw [if_pos h3] at hb
        simp at hb
      · rw [if_neg h3]
        simp only [MAX_BURN_DURATION_STEPS] at hr ⊢
        omega
    · rw [if_neg h2] at hb
      exact absurd hb h2

theorem startFireAtPoint_mem (pts : List (CriticalityPoint α)) (o : Option Nat)
    (p : CriticalityPoint α) (hp : p ∈ startFireAtPoint pts o) :
    p ∈ pts ∨ (p.isBurning = true ∧ p.burnTimeRemaining = MAX_BURN_DURATION_STEPS) := by
  unfold startFireAtPoint at hp
  split at hp
  · exact Or.inl hp
  · split at hp
    · exact Or.inl hp
    · split_ifs at hp
      · rcases List.mem_or_eq_of_mem_set hp with h | h
        · exact Or.inl h
        · right; subst h; exact ⟨rfl, rfl⟩
      · exact Or.inl hp

theorem seeding_mem (shuffled : List Nat) (n : Nat) (pts : List (CriticalityPoint α))
    (c : Nat) (p : CriticalityPoint α)
    (hp : p ∈ ((List.range n).foldl
      (fun (st : List (CriticalityPoint α) × Nat) i =>
        (startFireAtPoint st.1 shuffled[i]?, st.2 + 1)) (pts, c)).1) :
    p ∈ pts ∨ (p.isBurning = true ∧ p.burnTimeRemaining = MAX_BURN_DURATION_STEPS) := by
  induction n with
  | zero => exact Or.inl hp
  | succ n ih =>
    rw [List.range_succ, List.foldl_append, List.foldl_cons, List.foldl_nil] at hp
    rcases startFireAtPoint_mem _ _ _ hp with h | h
    · exact ih h
    · exact Or.inr h

/-- After a start that passes its three guards every burning point has
`MAX_BURN_DURATION_STEPS` steps left. -/
theorem startSimulation_mem (shuffled : List Nat) (s : SimState α)
    (hidle : s.simulationInterval = false) (hdata : s.criticalityPoints ≠ [])
    (hidx : s.criticalityIndex.isSome = true) (p : CriticalityPoint α)
    (hp : p ∈ (startSimulation shuffled s).criticalityPoints) (hb : p.isBurning = true) :
    p.burnTimeRemaining = MAX_BURN_DURATION_STEPS := by
  have hlen : ¬ s.criticalityPoints.length = 0 := by
    simpa [List.length_eq_zero] using hdata
  have hnone : ¬ s.criticalityIndex.isNone = true := by
    cases h : s.criticalityIndex <;> simp_all
  unfold startSimulation at hp
  rw [if_neg (by simp [hidle]), if_neg hlen, if_neg hnone] at hp
  dsimp only at hp
  have key : ∀ q, q ∈ ((List.range (min INITIAL_FIRE_STARTS shuffled.length)).foldl
      (fun (st : List (CriticalityPoint α) × Nat) i =>
        (startFireAtPoint st.1 shuffled[i]?, st.2 + 1))
      (s.criticalityPoints.map fun p =>
        { p with isBurning := false, isBurntOut := false, burnTimeRemaining := 0 }, 0)).1 →
      q.isBurning = true → q.burnTimeRemaining = MAX_BURN_DURATION_STEPS := by
    intro q hq hqb
    rcases seeding_mem _ _ _ _ _ hq with h | h
    · obtain ⟨r, -, hr⟩ := List.mem_map.1 h
      subst hr
      simp at hqb
    · exact h.2
  split_ifs at hp
  · rcases startFireAtPoint_mem _ _ _ hp with h | h
    · exact key p h hb
    · exact h.2
  · exact key p hp hb

end StartLemmas

section RunLemmas

variable {α : Type} [LinearOrderedField α] [FloorRing α]

theorem step_preserves_inRange (M : JsMath α) (minCrit : α) (draws : Nat → α)
    (s : SimState α) (h : BurnTimesInRange s.criticalityPoints) :
    BurnTimesInRange (runFireSimulationStepWith M minCrit draws s).criticalityPoints := by
  intro p' hp' hb
  obtain ⟨j, hj⟩ := List.mem_iff_getElem?.1 hp'
  rw [step_points] at hj
  cases hidx : s.criticalityIndex with
  | none =>
    rw [hidx] at hj
    exact h p' (List.mem_iff_getElem?.2 ⟨j, hj⟩) hb
  | some within =>
    rw [hidx] at hj
    cases hp : s.criticalityPoints[j]? with
    | none => simp [hp] at hj
    | some p =>
      simp only [hp, Option.map_some', Option.some.injEq] at hj
      subst hj
      exact igniteIf_burnDown_inRange _ j p (h p (List.mem_iff_getElem?.2 ⟨j, hp⟩)) hb

theorem runTicks_preserves_inRange (M : JsMath α) (ticks : List (Tick α)) (s : SimState α)
    (h : BurnTimesInRange s.criticalityPoints) :
    BurnTimesInRange (runTicks M ticks s).criticalityPoints := by
  induction ticks generalizing s with
  | nil => exact h
  | cons tk rest ih =>
    unfold runTicks
    exact ih _ (step_preserves_inRange M _ tk.draws _ h)

end RunLemmas

section BurnTimeInvariant

variable {α : Type} [LinearOrderedField α] [FloorRing α]

/-- C2: in every state reached by a `startSimulation` that passes its guards (timer
not installed, field not empty, index built) followed by any number of
`runFireSimulationStep` ticks, with any wind values and any random draws at each
tick, every point with `isBurning` true has `burnTimeRemaining` between 1 and
`MAX_BURN_DURATION_STEPS` (5) inclusive. -/
theorem C2_burning_points_have_time_left (M : JsMath α) (shuffled : List Nat)
    (ticks : List (Tick α)) (s : SimState α)
    (hidle : s.simulationInterval = false) (hdata : s.criticalityPoints ≠ [])
    (hidx : s.criticalityIndex.isSome = true) :
    ∀ p ∈ (runTicks M ticks (startSimulation shuffled s)).criticalityPoints,
      p.isBurning = true → 1 ≤ p.burnTimeRemaining ∧ p.burnTimeRemaining ≤ 5 := by
  have h0 : BurnTimesInRange (startSimulation shuffled s).criticalityPoints := by
    intro p hp hb
    rw [startSimulation_mem shuffled s hidle hdata hidx p hp hb]
    simp [MAX_BURN_DURATION_STEPS]
  exact runTicks_preserves_inRange M ticks _ h0

theorem C2_burning_points_have_time_left_witness :
    idleLineState.simulationInterval = false ∧ idleLineState.criticalityPoints ≠ [] ∧
    idleLineState.criticalityIndex.isSome = true ∧
    ∀ p ∈ (runTicks testMath [⟨0, none, fun _ => 0⟩, ⟨2, some 90, fun _ => 1 / 2⟩]
        (startSimulation [2, 0, 1, 3, 4] idleLineState)).criticalityPoints,
      p.isBurning = true → 1 ≤ p.burnTimeRemaining ∧ p.burnTimeRemaining ≤ 5 :=
  ⟨rfl, by simp [idleLineState, lineField], rfl,
    C2_burning_points_have_time_left testMath [2, 0, 1, 3, 4] _ idleLineState rfl
      (by simp [idleLineState, lineField]) rfl⟩

end BurnTimeInvariant

section ThresholdAndHop

variable {α : Type} [LinearOrderedField α] [FloorRing α]

theorem finalEffectiveCriticality_of_below (M : JsMath α) (minCrit windSpeed : α)
    (windDir : Option α) (t : Nat) (point actualNeighbor : CriticalityPoint α)
    (h : baseEffectiveCriticality actualNeighbor.K t < minCrit) :
    finalEffectiveCriticality M minCrit windSpeed windDir t point actualNeighbor = 0 := by
  unfold finalEffectiveCriticality
  simp only [h, if_true]

/-- C3: a point that is Unburnt before the step and whose decayed base criticality
`K * max(0.1, 1 - 0.003 * t)`, with `t` the clock value after the increment, is
strictly below `MINIMUM_EFFECTIVE_CRITICALITY_FOR_SPREAD` (0.525) is still Unburnt
after the step, for every wind, index, burning neighbours and random draws. -/
theorem C3_below_threshold_never_ignites (M : JsMath α) (draws : Nat → α) (s : SimState α)
    (t j : Nat) (p : CriticalityPoint α) (ht : t = s.currentSimulationTimeStep + 1)
    (hp : s.criticalityPoints[j]? = some p) (hu : p.state = BurnState.Unburnt)
    (hk : p.K * max 0.1 (1 - (t : α) * 0.003) < 0.525) :
    ∃ p', (runFireSimulationStep M draws s).criticalityPoints[j]? = some p' ∧
      p'.state = BurnState.Unburnt := by
  obtain ⟨hb, hbo⟩ := (state_eq_unburnt_iff p).1 hu
  unfold runFireSimulationStep
  rw [step_points, hp]
  cases hidx : s.criticalityIndex with
  | none => exact ⟨p, rfl, hu⟩
  | some within =>
    refine ⟨_, rfl, ?_⟩
    dsimp only [Option.map_some']
    rw [burnDown_of_not_burning p hb]
    have hnot : j ∉ (burnPass M MINIMUM_EFFECTIVE_CRITICALITY_FOR_SPREAD draws within s
        (s.currentSimulationTimeStep + 1)).newFiresThisStep := by
      intro hj
      obtain ⟨i, q, p2, -, -, -, -, hp2, -, -, -, hfin⟩ := burnPass_newFires _ _ _ _ _ _ _ hj
      rw [hp] at hp2
      cases hp2
      rw [finalEffectiveCriticality_of_below] at hfin
      · exact lt_irrefl _ hfin
      · rw [← ht]
        simpa [baseEffectiveCriticality, MINIMUM_EFFECTIVE_CRITICALITY_FOR_SPREAD] using hk
    unfold igniteIf
    rw [if_neg (fun h => hnot h.1)]
    exact hu

theorem C3_below_threshold_never_ignites_witness :
    (1 : Nat) = (lineState 2).currentSimulationTimeStep + 1 ∧
    (lineState 2).criticalityPoints[2]? = some (linePoint 2 0.5 false 0) ∧
    (linePoint 2 0.5 false 0).state = BurnState.Unburnt ∧
    (linePoint 2 0.5 false 0).K * max 0.1 (1 - ((1 : Nat) : ℚ) * 0.003) < 0.525 ∧
    ∃ p', (runFireSimulationStep testMath (fun _ => 0) (lineState 2)).criticalityPoints[2]?
        = some p' ∧ p'.state = BurnState.Unburnt :=
  ⟨rfl, rfl, rfl, by decide!,
    C3_below_threshold_never_ignites testMath (fun _ => 0) (lineState 2) 1 2 _ rfl rfl rfl
      (by decide!)⟩

/-- C4: a point that is Unburnt before the step and Burning after it has
`burnTimeRemaining` exactly `MAX_BURN_DURATION_STEPS` (5) after the step, and it is
returned by the radius query (`NEIGHBOR_SEARCH_RADIUS_DEGREES`) of a point that was
Burning before the step with `burnTimeRemaining` greater than 1; so no ignition of
the step is caused by a point ignited in that same step. -/
theorem C4_one_hop_per_step (M : JsMath α) (draws : Nat → α) (s : SimState α)
    (j : Nat) (p p' : CriticalityPoint α) (hp : s.criticalityPoints[j]? = some p)
    (hp' : (runFireSimulationStep M draws s).criticalityPoints[j]? = some p')
    (hu : p.state = BurnState.Unburnt) (hb' : p'.state = BurnState.Burning) :
    p'.burnTimeRemaining = 5 ∧
    ∃ (within : α → α → α → List Nat) (i : Nat) (q : CriticalityPoint α),
      s.criticalityIndex = some within ∧ s.criticalityPoints[i]? = some q ∧
      q.state = BurnState.Burning ∧ 1 < q.burnTimeRemaining ∧
      j ∈ within q.lng q.lat NEIGHBOR_SEARCH_RADIUS_DEGREES := by
  obtain ⟨hb, hbo⟩ := (state_eq_unburnt_iff p).1 hu
  unfold runFireSimulationStep at hp'
  rw [step_points, hp] at hp'
  cases hidx : s.criticalityIndex with
  | none =>
    rw [hidx] at hp'
    cases hp'
    rw [hu] at hb'
    cases hb'
  | some within =>
    rw [hidx] at hp'
    simp only [Option.map_some', Option.some.injEq] at hp'
    rw [burnDown_of_not_burning p hb] at hp'
    subst hp'
    unfold igniteIf at hb' ⊢
    split_ifs at hb' ⊢ with hj
    · obtain ⟨i, q, p2, hq, hqb, hqt, hw, -⟩ := burnPass_newFires _ _ _ _ _ _ _ hj.1
      exact ⟨rfl, within, i, q, rfl, hq, (state_eq_burning_iff q).2 hqb, hqt, hw⟩
    · rw [hu] at hb'
      cases hb'

theorem C4_one_hop_per_step_witness :
    (lineState 2).criticalityPoints[1]? = some (linePoint 1 1 false 0) ∧
    (runFireSimulationStep testMath (fun _ => 0) (lineState 2)).criticalityPoints[1]?
      = some (linePoint 1 1 true 5) ∧
    (linePoint 1 1 false 0).state = BurnState.Unburnt ∧
    (linePoint 1 1 true 5).state = BurnState.Burning ∧
    (linePoint 1 1 true 5).burnTimeRemaining = 5 ∧
    ∃ (within : ℚ → ℚ → ℚ → List Nat) (i : Nat) (q : CriticalityPoint ℚ),
      (lineState 2).criticalityIndex = some within ∧
      (lineState 2).criticalityPoints[i]? = some q ∧
      q.state = BurnState.Burning ∧ 1 < q.burnTimeRemaining ∧
      1 ∈ within q.lng q.lat NEIGHBOR_SEARCH_RADIUS_DEGREES :=
  ⟨rfl, by decide!, rfl, rfl,
    C4_one_hop_per_step testMath (fun _ => 0) (lineState 2) 1 _ _ rfl (by decide!) rfl rfl⟩

end ThresholdAndHop

section LastBurnStep

variable {α : Type} [LinearOrderedField α] [FloorRing α]

/-- When no burning point has more than one step left, the pass nominates nobody. -/
theorem burnPass_newFires_eq_nil (M : JsMath α) (minCrit : α) (draws : Nat → α)
    (within : α → α → α → List Nat) (s : SimState α) (t : Nat)
    (h : ∀ p ∈ s.criticalityPoints, p.isBurning = true → p.burnTimeRemaining ≤ 1) :
    (burnPass M minCrit draws within s t).newFiresThisStep = [] := by
  rw [List.eq_nil_iff_forall_not_mem]
  intro j hj
  obtain ⟨i, q, p, hq, hqb, hqt, -⟩ := burnPass_newFires _ _ _ _ _ _ _ hj
  have := h q (List.mem_iff_getElem?.2 ⟨i, hq⟩) hqb
  omega

/-- Counterexample to C5 as stated: when the spatial index is missing the step
returns at its guard (line 421), so the burning seed of the line field, which has
`burnTimeRemaining = 1`, is still Burning with one step left after the call. -/
theorem C5_counterexample_index_missing :
    ({ lineState 1 with criticalityIndex := none } : SimState ℚ).criticalityPoints[0]?
      = some (linePoint 0 1 true 1) ∧
    (linePoint 0 1 true 1).state = BurnState.Burning ∧
    (linePoint 0 1 true 1).burnTimeRemaining = 1 ∧
    ((runFireSimulationStep testMath (fun _ => 0)
        { lineState 1 with criticalityIndex := none }).criticalityPoints[0]?).map
      CriticalityPoint.state = some BurnState.Burning := by
  decide!

/-- C5 (amended): when the spatial index is available, a Burning point whose
`burnTimeRemaining` is 1 before the step is BurntOut after it; and, with or without
the index, if every Burning point has `burnTimeRemaining` 1 before the step then
every point that is Unburnt before the step is Unburnt after it. -/
theorem C5_last_step_burns_out_without_spreading (M : JsMath α) (draws : Nat → α)
    (s : SimState α) :
    (∀ (within : α → α → α → List Nat) (j : Nat) (p : CriticalityPoint α),
        s.criticalityIndex = some within → s.criticalityPoints[j]? = some p →
        p.state = BurnState.Burning → p.burnTimeRemaining = 1 →
        ∃ p', (runFireSimulationStep M draws s).criticalityPoints[j]? = some p' ∧
          p'.state = BurnState.BurntOut) ∧
    ((∀ p ∈ s.criticalityPoints, p.state = BurnState.Burning → p.burnTimeRemaining = 1) →
      ∀ (j : Nat) (p : CriticalityPoint α), s.criticalityPoints[j]? = some p →
        p.state = BurnState.Unburnt →
        ∃ p', (runFireSimulationStep M draws s).criticalityPoints[j]? = some p' ∧
          p'.state = BurnState.Unburnt) := by
  unfold runFireSimulationStep
  constructor
  · intro within j p hidx hp hb h1
    rw [step_points, hp, hidx]
    refine ⟨_, rfl, ?_⟩
    have hb' := (state_eq_burning_iff p).1 hb
    simp [state_eq_burntOut_iff, igniteIf, burnDown, hb', h1]
  · intro hall j p hp hu
    rw [step_points, hp]
    cases hidx : s.criticalityIndex with
    | none => exact ⟨p, rfl, hu⟩
    | some within =>
      refine ⟨_, rfl, ?_⟩
      have hnil := burnPass_newFires_eq_nil M MINIMUM_EFFECTIVE_CRITICALITY_FOR_SPREAD draws
        within s (s.currentSimulationTimeStep + 1) (fun q hq hqb => by
          have := hall q hq ((state_eq_burning_iff q).2 hqb)
          omega)
      obtain ⟨hb, hbo⟩ := (state_eq_unburnt_iff p).1 hu
      simp only [Option.map_some', hnil, burnDown_of_not_burning p hb]
      simpa [igniteIf] using hu

theorem C5_last_step_burns_out_without_spreading_witness :
    (lineState 1).criticalityIndex = some (withinRadius (lineField 1)) ∧
    (lineState 1).criticalityPoints[0]? = some (linePoint 0 1 true 1) ∧
    (linePoint 0 1 true 1).state = BurnState.Burning ∧
    (linePoint 0 1 true 1).burnTimeRemaining = 1 ∧
    (∃ p', (runFireSimulationStep testMath (fun _ => 0) (lineState 1)).criticalityPoints[0]?
        = some p' ∧ p'.state = BurnState.BurntOut) ∧
    (∀ p ∈ (lineState 1).criticalityPoints,
      p.state = BurnState.Burning → p.burnTimeRemaining = 1) ∧
    (lineState 1).criticalityPoints[1]? = some (linePoint 1 1 false 0) ∧
    (linePoint 1 1 false 0).state = BurnState.Unburnt ∧
    (∃ p', (runFireSimulationStep testMath (fun _ => 0) (lineState 1)).criticalityPoints[1]?
        = some p' ∧ p'.state = BurnState.Unburnt) ∧
    (∃ p', (runFireSimulationStep testMath (fun _ => 0)
        { lineState 1 with criticalityIndex := none }).criticalityPoints[1]?
        = some p' ∧ p'.state = BurnState.Unburnt) :=
  ⟨rfl, rfl, rfl, rfl,
    (C5_last_step_burns_out_without_spreading testMath (fun _ => 0) (lineState 1)).1
      _ 0 _ rfl rfl rfl rfl,
    by decide!, rfl, rfl,
    (C5_last_step_burns_out_without_spreading testMath (fun _ => 0) (lineState 1)).2
      (by decide!) 1 _ rfl rfl,
    (C5_last_step_burns_out_without_spreading testMath (fun _ => 0)
      { lineState 1 with criticalityIndex := none }).2 (by decide!) 1 _ rfl rfl⟩

end LastBurnStep

section LineScenario

variable {α : Type} [LinearOrderedField α] [FloorRing α]

/-- When no burning point has more than one step left, the step burns every point
down and ignites nothing. -/
theorem step_points_of_last (M : JsMath α) (minCrit : α) (draws : Nat → α) (s : SimState α)
    (within : α → α → α → List Nat) (hidx : s.criticalityIndex = some within)
    (h : ∀ p ∈ s.criticalityPoints, p.isBurning = true → p.burnTimeRemaining ≤ 1) :
    (runFireSimulationStepWith M minCrit draws s).criticalityPoints
      = s.criticalityPoints.map burnDown := by
  apply List.ext_getElem?
  intro j
  rw [step_points, hidx, List.getElem?_map]
  dsimp only
  rw [burnPass_newFires_eq_nil M minCrit draws within s _ h]
  cases s.criticalityPoints[j]? with
  | none => rfl
  | some p => simp [igniteIf]

/-- Counterexample to C6 as stated: in the line scenario (seed Burning with
`burnTimeRemaining = 1`, neighbour Unburnt with criticality 1, no wind, index built),
with the spread threshold set to 0 as well as with the threshold of the source, the
step leaves the immediate neighbour Unburnt: the seed burns out without querying
its neighbours. -/
theorem C6_counterexample_neighbour_stays_unburnt :
    (lineState 1).criticalityPoints.map CriticalityPoint.state
      = [BurnState.Burning, BurnState.Unburnt, BurnState.Unburnt, BurnState.Unburnt,
         BurnState.Unburnt] ∧
    (runFireSimulationStepWith testMath 0 (fun _ => 0) (lineState 1)).criticalityPoints.map
        CriticalityPoint.state
      = [BurnState.BurntOut, BurnState.Unburnt, BurnState.Unburnt, BurnState.Unburnt,
         BurnState.Unburnt] ∧
    (runFireSimulationStep testMath (fun _ => 0) (lineState 1)).criticalityPoints.map
        CriticalityPoint.state
      = [BurnState.BurntOut, BurnState.Unburnt, BurnState.Unburnt, BurnState.Unburnt,
         BurnState.Unburnt] := by
  decide!

/-- C6 (amended): in the line scenario (five points 0.0001 degrees apart, the seed
Burning with `burnTimeRemaining = 1`, its immediate neighbour Unburnt with
criticality 1, no wind, index built), for every spread threshold, every `Math`
library and every random draws, after one step the seed point is BurntOut and the
immediate neighbour, like the other three points, is still Unburnt. -/
theorem C6_line_scenario_seed_burns_out_alone (M : JsMath ℚ) (minCrit : ℚ) (draws : Nat → ℚ) :
    (runFireSimulationStepWith M minCrit draws (lineState 1)).criticalityPoints.map
        CriticalityPoint.state
      = [BurnState.BurntOut, BurnState.Unburnt, BurnState.Unburnt, BurnState.Unburnt,
         BurnState.Unburnt] := by
  rw [step_points_of_last M minCrit draws (lineState 1) _ rfl (by decide!)]
  decide!

end LineScenario

section AutoTermination

variable {α : Type} [LinearOrderedField α] [FloorRing α]

/-- A nominated reference is burning after the ignition pass. -/
theorem newFires_burning_after (M : JsMath α) (minCrit : α) (draws : Nat → α)
    (within : α → α → α → List Nat) (s : SimState α) (t j : Nat)
    (hj : j ∈ (burnPass M minCrit draws within s t).newFiresThisStep) :
    ∃ p', ((burnPass M minCrit draws within s t).newFiresThisStep.foldl ignitePoint
        (burnPass M minCrit draws within s t).points)[j]? = some p' ∧ p'.isBurning = true := by
  obtain ⟨i, q, p, -, -, -, -, hp, hb, hbo, -⟩ := burnPass_newFires _ _ _ _ _ _ _ hj
  rw [foldl_ignitePoint_getElem?, burnPass_points, hp]
  refine ⟨_, rfl, ?_⟩
  rw [burnDown_of_not_burning p hb]
  simp [igniteIf, hj, hb, hbo]

/-- The timer after a step that ran with the index: cleared exactly when no point
burns at the end of the step. -/
theorem step_interval (M : JsMath α) (minCrit : α) (draws : Nat → α) (s : SimState α)
    (within : α → α → α → List Nat) (hidx : s.criticalityIndex = some within) :
    ((∀ p ∈ (runFireSimulationStepWith M minCrit draws s).criticalityPoints,
        p.isBurning = false) →
      (runFireSimulationStepWith M minCrit draws s).simulationInterval = false) ∧
    ((∃ p ∈ (runFireSimulationStepWith M minCrit draws s).criticalityPoints,
        p.isBurning = true) →
      (runFireSimulationStepWith M minCrit draws s).simulationInterval
        = s.simulationInterval) ∧
    (runFireSimulationStepWith M minCrit draws s).currentSimulationTimeStep
      = s.currentSimulationTimeStep + 1 := by
  unfold runFireSimulationStepWith
  rw [hidx]
  dsimp only
  split_ifs with hc
  · refine ⟨fun _ => rfl, ?_, rfl⟩
    rintro ⟨p, hp, hb⟩
    exfalso
    have h1 := hc.1
    simp only [stopSimulation_points] at hp
    simp only [Bool.not_eq_true', List.any_eq_false] at h1
    exact h1 p hp hb
  · refine ⟨?_, fun _ => rfl, rfl⟩
    intro hall
    exfalso
    apply hc
    refine ⟨?_, Nat.succ_pos _, ?_⟩
    · simp only [Bool.not_eq_true', List.any_eq_false]
      intro p hp
      simpa using hall p hp
    · rw [List.length_eq_zero, List.eq_nil_iff_forall_not_mem]
      intro j hj
      obtain ⟨p', hp', hb'⟩ := newFires_burning_after M minCrit draws within s _ j hj
      have := hall p' (List.mem_iff_getElem?.2 ⟨j, hp'⟩)
      rw [hb'] at this
      cases this

/-- C7: after a `runFireSimulationStep` that ran with the spatial index available,
if no point is Burning the controller is Idle (the timer is cleared) at the end of
that same step, the first step after a start included (no condition on the clock);
if some point is still Burning the timer is left as it was, so a running controller
stays Running; the clock has advanced by exactly one; and a field whose burning
points all have `burnTimeRemaining = 1` has no Burning point and is Idle after that
one step, wherever its other points lie. -/
theorem C7_auto_termination (M : JsMath α) (draws : Nat → α) (s : SimState α)
    (within : α → α → α → List Nat) (hidx : s.criticalityIndex = some within) :
    ((∀ p ∈ (runFireSimulationStep M draws s).criticalityPoints,
        p.state ≠ BurnState.Burning) →
      (runFireSimulationStep M draws s).simulationInterval = false) ∧
    ((∃ p ∈ (runFireSimulationStep M draws s).criticalityPoints,
        p.state = BurnState.Burning) →
      (runFireSimulationStep M draws s).simulationInterval = s.simulationInterval) ∧
    (runFireSimulationStep M draws s).currentSimulationTimeStep
      = s.currentSimulationTimeStep + 1 ∧
    ((∀ p ∈ s.criticalityPoints, p.state = BurnState.Burning → p.burnTimeRemaining = 1) →
      (∀ p ∈ (runFireSimulationStep M draws s).criticalityPoints,
        p.state ≠ BurnState.Burning) ∧
      (runFireSimulationStep M draws s).simulationInterval = false) := by
  obtain ⟨h1, h2, h3⟩ :=
    step_interval M MINIMUM_EFFECTIVE_CRITICALITY_FOR_SPREAD draws s within hidx
  have hidle : (∀ p ∈ (runFireSimulationStep M draws s).criticalityPoints,
        p.state ≠ BurnState.Burning) →
      (runFireSimulationStep M draws s).simulationInterval = false := by
    intro hall
    apply h1
    intro p hp
    have := hall p hp
    rw [Ne, state_eq_burning_iff] at this
    simpa using this
  refine ⟨hidle, ?_, h3, ?_⟩
  · rintro ⟨p, hp, hb⟩
    exact h2 ⟨p, hp, (state_eq_burning_iff p).1 hb⟩
  · intro hall
    have hnone : ∀ p ∈ (runFireSimulationStep M draws s).criticalityPoints,
        p.state ≠ BurnState.Burning := by
      intro p' hp'
      unfold runFireSimulationStep at hp'
      rw [step_points_of_last M _ draws s within hidx (fun q hq hqb => by
        have := hall q hq ((state_eq_burning_iff q).2 hqb)
        omega)] at hp'
      obtain ⟨p, hp, rfl⟩ := List.mem_map.1 hp'
      rw [Ne, state_eq_burning_iff]
      unfold burnDown
      by_cases hb : p.isBurning = true
      · have := hall p hp ((state_eq_burning_iff p).2 hb)
        simp [hb, this]
      · simp [hb]
    exact ⟨hnone, hidle hnone⟩

theorem C7_auto_termination_witness :
    (lineState 1).criticalityIndex = some (withinRadius (lineField 1)) ∧
    ((∀ p ∈ (runFireSimulationStep testMath (fun _ => 0) (lineState 1)).criticalityPoints,
        p.state ≠ BurnState.Burning) →
      (runFireSimulationStep testMath (fun _ => 0) (lineState 1)).simulationInterval = false) ∧
    ((∃ p ∈ (runFireSimulationStep testMath (fun _ => 0) (lineState 1)).criticalityPoints,
        p.state = BurnState.Burning) →
      (runFireSimulationStep testMath (fun _ => 0) (lineState 1)).simulationInterval
        = (lineState 1).simulationInterval) ∧
    (runFireSimulationStep testMath (fun _ => 0) (lineState 1)).currentSimulationTimeStep
      = (lineState 1).currentSimulationTimeStep + 1 ∧
    ((∀ p ∈ (lineState 1).criticalityPoints,
        p.state = BurnState.Burning → p.burnTimeRemaining = 1) →
      (∀ p ∈ (runFireSimulationStep testMath (fun _ => 0) (lineState 1)).criticalityPoints,
        p.state ≠ BurnState.Burning) ∧
      (runFireSimulationStep testMath (fun _ => 0) (lineState 1)).simulationInterval = false) :=
  ⟨rfl, C7_auto_termination testMath (fun _ => 0) (lineState 1) _ rfl⟩

end AutoTermination

section WindCaps

variable {α : Type} [LinearOrderedField α] [FloorRing α]

omit [FloorRing α] in
theorem cappedWindInfluence_bounds (raw : α) :
    -(MAX_WIND_BONUS_FACTOR * MAX_UPWIND_PENALTY_FACTOR_RATIO) ≤ cappedWindInfluence raw ∧
    cappedWindInfluence raw ≤ MAX_WIND_BONUS_FACTOR := by
  unfold cappedWindInfluence
  have h9 : (0 : α) < MAX_WIND_BONUS_FACTOR := by
    unfold MAX_WIND_BONUS_FACTOR; norm_num
  have h144 : (0 : α) < MAX_WIND_BONUS_FACTOR * MAX_UPWIND_PENALTY_FACTOR_RATIO := by
    unfold MAX_WIND_BONUS_FACTOR MAX_UPWIND_PENALTY_FACTOR_RATIO; norm_num
  split_ifs with h
  · refine ⟨?_, min_le_left _ _⟩
    exact le_trans (by linarith) (le_min (le_of_lt h9) h)
  · dsimp only
    refine ⟨le_max_left _ _, max_le (by linarith) ?_⟩
    exact le_of_lt (lt_trans (not_le.1 h) h9)

/-- On the wind path (threshold passed, wind speed positive, direction set, points
not coincident) the final value is the clamped sum of base and capped influence. -/
theorem finalEffectiveCriticality_wind (M : JsMath α) (minCrit windSpeed windDir : α)
    (t : Nat) (point actualNeighbor : CriticalityPoint α)
    (hgate : ¬ baseEffectiveCriticality actualNeighbor.K t < minCrit) (hs : 0 < windSpeed)
    (hv : actualNeighbor.lng - point.lng ≠ 0 ∨ actualNeighbor.lat - point.lat ≠ 0) :
    finalEffectiveCriticality M minCrit windSpeed (some windDir) t point actualNeighbor
      = max 0 (min 1 (baseEffectiveCriticality actualNeighbor.K t
          + cappedWindInfluence (rawWindInfluence M windSpeed windDir
              (actualNeighbor.lng - point.lng) (actualNeighbor.lat - point.lat)))) := by
  have hpos : (actualNeighbor.lng - point.lng) * (actualNeighbor.lng - point.lng)
      + (actualNeighbor.lat - point.lat) * (actualNeighbor.lat - point.lat) > 0 := by
    rcases hv with h | h
    · have := mul_self_pos.2 h
      have := mul_self_nonneg (actualNeighbor.lat - point.lat)
      linarith
    · have := mul_self_pos.2 h
      have := mul_self_nonneg (actualNeighbor.lng - point.lng)
      linarith
  unfold finalEffectiveCriticality
  simp only [hgate, if_false, hs, gt_iff_lt, if_true]
  rw [if_pos hpos]

/-- C8: for every wind speed > 0, every wind direction and every non-zero spread
vector `(dx, dy)` from a burning point to a candidate, the capped wind influence
that line 466 adds to the base criticality lies in
`[-MAX_WIND_BONUS_FACTOR * MAX_UPWIND_PENALTY_FACTOR_RATIO, MAX_WIND_BONUS_FACTOR]`
`= [-1.44, 0.9]`; it is `min(raw, 0.9)` when `raw ≥ 0` and `max(raw, -1.44)` when
`raw < 0`, where `raw = alignment * windSpeed * WIND_EFFECT_SCALER`. -/
theorem C8_capped_wind_influence_range (M : JsMath α) (minCrit windSpeed windDir : α)
    (t : Nat) (point actualNeighbor : CriticalityPoint α) (dx dy : α)
    (hdx : dx = actualNeighbor.lng - point.lng) (hdy : dy = actualNeighbor.lat - point.lat)
    (hs : 0 < windSpeed) (hv : dx ≠ 0 ∨ dy ≠ 0) :
    (¬ baseEffectiveCriticality actualNeighbor.K t < minCrit →
      finalEffectiveCriticality M minCrit windSpeed (some windDir) t point actualNeighbor
        = max 0 (min 1 (baseEffectiveCriticality actualNeighbor.K t
            + cappedWindInfluence (rawWindInfluence M windSpeed windDir dx dy)))) ∧
    rawWindInfluence M windSpeed windDir dx dy
      = cosAngleDiff M windDir dx dy * windSpeed * WIND_EFFECT_SCALER ∧
    -(1.44 : α) ≤ cappedWindInfluence (rawWindInfluence M windSpeed windDir dx dy) ∧
    cappedWindInfluence (rawWindInfluence M windSpeed windDir dx dy) ≤ 0.9 ∧
    (MAX_WIND_BONUS_FACTOR * MAX_UPWIND_PENALTY_FACTOR_RATIO : α) = 1.44 ∧
    (MAX_WIND_BONUS_FACTOR : α) = 0.9 ∧
    (0 ≤ rawWindInfluence M windSpeed windDir dx dy →
      cappedWindInfluence (rawWindInfluence M windSpeed windDir dx dy)
        = min (rawWindInfluence M windSpeed windDir dx dy) 0.9) ∧
    (rawWindInfluence M windSpeed windDir dx dy < 0 →
      cappedWindInfluence (rawWindInfluence M windSpeed windDir dx dy)
        = max (rawWindInfluence M windSpeed windDir dx dy) (-1.44)) := by
  have h144 : (MAX_WIND_BONUS_FACTOR * MAX_UPWIND_PENALTY_FACTOR_RATIO : α) = 1.44 := by
    unfold MAX_WIND_BONUS_FACTOR MAX_UPWIND_PENALTY_FACTOR_RATIO; norm_num
  have h9 : (MAX_WIND_BONUS_FACTOR : α) = 0.9 := rfl
  have hb := cappedWindInfluence_bounds (rawWindInfluence M windSpeed windDir dx dy)
  rw [h144, h9] at hb
  refine ⟨?_, rfl, hb.1, hb.2, h144, h9, ?_, ?_⟩
  · intro hgate
    subst hdx hdy
    exact finalEffectiveCriticality_wind M minCrit windSpeed windDir t point actualNeighbor
      hgate hs hv
  · intro h
    unfold cappedWindInfluence
    rw [if_pos h, h9, min_comm]
  · intro h
    unfold cappedWindInfluence
    rw [if_neg (not_le.2 h)]
    dsimp only
    rw [h144, max_comm]

theorem C8_capped_wind_influence_range_witness :
    (1 / 10000 : ℚ) = (linePoint 1 1 false 0).lng - (linePoint 0 1 true 2).lng ∧
    (0 : ℚ) = (linePoint 1 1 false 0).lat - (linePoint 0 1 true 2).lat ∧
    (0 : ℚ) < 2 ∧ ((1 / 10000 : ℚ) ≠ 0 ∨ (0 : ℚ) ≠ 0) ∧
    -(1.44 : ℚ) ≤ cappedWindInfluence (rawWindInfluence testMath 2 90 (1 / 10000) 0) ∧
    cappedWindInfluence (rawWindInfluence testMath 2 90 (1 / 10000) 0) ≤ 0.9 :=
  ⟨by decide!, by decide!, by decide!, Or.inl (by decide!),
    (C8_capped_wind_influence_range testMath 0 2 90 1 (linePoint 0 1 true 2)
      (linePoint 1 1 false 0) (1 / 10000) 0 (by decide!) (by decide!) (by decide!)
      (Or.inl (by decide!))).2.2.1,
    (C8_capped_wind_influence_range testMath 0 2 90 1 (linePoint 0 1 true 2)
      (linePoint 1 1 false 0) (1 / 10000) 0 (by decide!) (by decide!) (by decide!)
      (Or.inl (by decide!))).2.2.2.1⟩

end WindCaps

section WindSign

/-- The remainder differs from the dividend by an integer multiple of the divisor. -/
theorem jsRem_eq_sub_int_mul {α : Type} [LinearOrderedField α] [FloorRing α] (a b : α) :
    ∃ k : Int, jsRem a b = a - b * (k : α) :=
  ⟨jsTrunc (a / b), rfl⟩

/-- With the real cosine and sine the wind-toward angle of line 452 has cosine
`-sin(D°)` and sine `-cos(D°)`. -/
theorem windToward_cos_sin (D : ℝ) :
    Real.cos (jsRem (270 - D + 360) 360 * Real.pi / 180) = -Real.sin (D * Real.pi / 180) ∧
    Real.sin (jsRem (270 - D + 360) 360 * Real.pi / 180) = -Real.cos (D * Real.pi / 180) := by
  obtain ⟨k, hk⟩ := jsRem_eq_sub_int_mul (270 - D + 360) (360 : ℝ)
  have hθ : jsRem (270 - D + 360) 360 * Real.pi / 180
      = (Real.pi / 2 - D * Real.pi / 180 + Real.pi) - ((k - 1 : Int) : ℝ) * (2 * Real.pi) := by
    rw [hk]
    push_cast
    ring
  rw [hθ, Real.cos_sub_int_mul_two_pi, Real.sin_sub_int_mul_two_pi, Real.cos_add_pi,
    Real.sin_add_pi, Real.cos_pi_div_two_sub, Real.sin_pi_div_two_sub]
  exact ⟨rfl, rfl⟩

/-- The alignment of a spread vector pointing toward bearing `D + 180` is `1`, and
of the opposite vector `-1`. -/
theorem cosAngleDiff_downwind (D r : ℝ) (hr : 0 < r) :
    cosAngleDiff ⟨Real.cos, Real.sin, Real.sqrt, Real.pi⟩ D
        (-r * Real.sin (D * Real.pi / 180)) (-r * Real.cos (D * Real.pi / 180)) = 1 ∧
    cosAngleDiff ⟨Real.cos, Real.sin, Real.sqrt, Real.pi⟩ D
        (r * Real.sin (D * Real.pi / 180)) (r * Real.cos (D * Real.pi / 180)) = -1 := by
  obtain ⟨hc, hs⟩ := windToward_cos_sin D
  have hsq := Real.sin_sq_add_cos_sq (D * Real.pi / 180)
  have hd1 : (-r * Real.sin (D * Real.pi / 180)) * (-r * Real.sin (D * Real.pi / 180))
      + (-r * Real.cos (D * Real.pi / 180)) * (-r * Real.cos (D * Real.pi / 180)) = r * r := by
    nlinarith [hsq]
  have hd2 : (r * Real.sin (D * Real.pi / 180)) * (r * Real.sin (D * Real.pi / 180))
      + (r * Real.cos (D * Real.pi / 180)) * (r * Real.cos (D * Real.pi / 180)) = r * r := by
    nlinarith [hsq]
  have hne : r ≠ 0 := ne_of_gt hr
  unfold cosAngleDiff
  dsimp only
  rw [hc, hs, hd1, hd2, Real.sqrt_mul_self (le_of_lt hr)]
  constructor
  · rw [div_eq_one_iff_eq hne]
    nlinarith [hsq]
  · rw [div_eq_iff hne]
    nlinarith [hsq]

/-- C9: with the real cosine, sine and square root, for every wind speed > 0 and
every direction `D` the wind blows FROM (compass degrees, in particular every `D`
in `[0, 360]`), a spread vector pointing toward compass bearing `D + 180`
(`dx = -r sin(D°)` east, `dy = -r cos(D°)` north, `r > 0`) receives a non-negative
capped wind influence and the opposite vector a non-positive one; at `D = 0` this
is wind from the north favouring spread to the south. -/
theorem C9_wind_sign (windSpeed D r : ℝ) (hs : 0 < windSpeed) (hr : 0 < r) :
    0 ≤ cappedWindInfluence (rawWindInfluence ⟨Real.cos, Real.sin, Real.sqrt, Real.pi⟩
          windSpeed D (-r * Real.sin (D * Real.pi / 180)) (-r * Real.cos (D * Real.pi / 180))) ∧
    cappedWindInfluence (rawWindInfluence ⟨Real.cos, Real.sin, Real.sqrt, Real.pi⟩
          windSpeed D (r * Real.sin (D * Real.pi / 180)) (r * Real.cos (D * Real.pi / 180))) ≤ 0 := by
  obtain ⟨h1, h2⟩ := cosAngleDiff_downwind D r hr
  have hsc : (0 : ℝ) < WIND_EFFECT_SCALER := by unfold WIND_EFFECT_SCALER; norm_num
  have h9 : (0 : ℝ) < MAX_WIND_BONUS_FACTOR := by unfold MAX_WIND_BONUS_FACTOR; norm_num
  have hp : (0 : ℝ) < windSpeed * WIND_EFFECT_SCALER := mul_pos hs hsc
  unfold rawWindInfluence
  rw [h1, h2]
  unfold cappedWindInfluence
  constructor
  · rw [if_pos (by linarith)]
    exact le_min (le_of_lt h9) (by linarith)
  · rw [if_neg (by linarith)]
    dsimp only
    apply max_le
    · have : (0 : ℝ) < MAX_WIND_BONUS_FACTOR * MAX_UPWIND_PENALTY_FACTOR_RATIO := by
        unfold MAX_WIND_BONUS_FACTOR MAX_UPWIND_PENALTY_FACTOR_RATIO; norm_num
      linarith
    · linarith

theorem C9_wind_sign_witness :
    (0 : ℝ) < 4 ∧ (0 : ℝ) < 1 ∧
    0 ≤ cappedWindInfluence (rawWindInfluence ⟨Real.cos, Real.sin, Real.sqrt, Real.pi⟩
          4 0 (-1 * Real.sin (0 * Real.pi / 180)) (-1 * Real.cos (0 * Real.pi / 180))) ∧
    cappedWindInfluence (rawWindInfluence ⟨Real.cos, Real.sin, Real.sqrt, Real.pi⟩
          4 0 (1 * Real.sin (0 * Real.pi / 180)) (1 * Real.cos (0 * Real.pi / 180))) ≤ 0 :=
  ⟨by norm_num, by norm_num, C9_wind_sign 4 0 1 (by norm_num) (by norm_num)⟩

end WindSign

section FinalCriticality

variable {α : Type} [LinearOrderedField α] [FloorRing α]

omit [FloorRing α] in
theorem baseEffectiveCriticality_unit (K : α) (t : Nat) (h0 : 0 ≤ K) (h1 : K ≤ 1) :
    0 ≤ baseEffectiveCriticality K t ∧ baseEffectiveCriticality K t ≤ 1 := by
  unfold baseEffectiveCriticality
  have ht : (0 : α) ≤ (t : α) := Nat.cast_nonneg t
  have hm0 : (0 : α) ≤ max 0.1 (1 - (t : α) * 0.003) :=
    le_trans (by norm_num) (le_max_left _ _)
  have hm1 : max 0.1 (1 - (t : α) * 0.003) ≤ (1 : α) := by
    apply max_le
    · norm_num
    · have : (0 : α) ≤ (t : α) * 0.003 := mul_nonneg ht (by norm_num)
      linarith
  exact ⟨mul_nonneg h0 hm0, mul_le_one₀ h1 hm0 hm1⟩

/-- C10: for a candidate with criticality `K` in `[0,1]`, every clock value `t`,
every wind speed (in particular `≥ 0`) and every wind direction, set or unset, the
final effective criticality lies in `[0,1]`; and when the wind is off (speed not
above 0), the direction is unset or the two points coincide, a candidate whose base
value `K * max(0.1, 1 - 0.003 * t)` is not below the threshold 0.525 of line 441 has
that unclamped base value as its final effective criticality, which is positive and
so is the value compared against the random draw. -/
theorem C10_final_criticality_in_unit_interval (M : JsMath α) (windSpeed : α)
    (windDir : Option α) (t : Nat) (point actualNeighbor : CriticalityPoint α)
    (hK0 : 0 ≤ actualNeighbor.K) (hK1 : actualNeighbor.K ≤ 1) :
    (0 ≤ finalEffectiveCriticality M MINIMUM_EFFECTIVE_CRITICALITY_FOR_SPREAD windSpeed
          windDir t point actualNeighbor ∧
      finalEffectiveCriticality M MINIMUM_EFFECTIVE_CRITICALITY_FOR_SPREAD windSpeed
          windDir t point actualNeighbor ≤ 1) ∧
    ((windSpeed ≤ 0 ∨ windDir = none ∨
        (actualNeighbor.lng = point.lng ∧ actualNeighbor.lat = point.lat)) →
      ¬ actualNeighbor.K * max 0.1 (1 - (t : α) * 0.003) < 0.525 →
      finalEffectiveCriticality M MINIMUM_EFFECTIVE_CRITICALITY_FOR_SPREAD windSpeed
          windDir t point actualNeighbor
        = actualNeighbor.K * max 0.1 (1 - (t : α) * 0.003) ∧
      0 < finalEffectiveCriticality M MINIMUM_EFFECTIVE_CRITICALITY_FOR_SPREAD windSpeed
          windDir t point actualNeighbor) := by
  obtain ⟨hb0, hb1⟩ := baseEffectiveCriticality_unit actualNeighbor.K t hK0 hK1
  constructor
  · unfold finalEffectiveCriticality
    cases windDir with
    | none =>
      dsimp only
      split_ifs
      · exact ⟨le_refl _, zero_le_one⟩
      · exact ⟨hb0, hb1⟩
    | some d =>
      dsimp only
      split_ifs
      · exact ⟨le_refl _, zero_le_one⟩
      · exact ⟨le_max_left _ _, max_le zero_le_one (min_le_left _ _)⟩
      · exact ⟨hb0, hb1⟩
      · exact ⟨hb0, hb1⟩
  · intro hpath hgate
    have hg : ¬ baseEffectiveCriticality actualNeighbor.K t
        < MINIMUM_EFFECTIVE_CRITICALITY_FOR_SPREAD := hgate
    have hbase : baseEffectiveCriticality actualNeighbor.K t
        = actualNeighbor.K * max 0.1 (1 - (t : α) * 0.003) := rfl
    have hpos : (0 : α) < baseEffectiveCriticality actualNeighbor.K t := by
      have h525 : (0 : α) < MINIMUM_EFFECTIVE_CRITICALITY_FOR_SPREAD := by
        unfold MINIMUM_EFFECTIVE_CRITICALITY_FOR_SPREAD; norm_num
      exact lt_of_lt_of_le h525 (not_lt.1 hg)
    have hfin : finalEffectiveCriticality M MINIMUM_EFFECTIVE_CRITICALITY_FOR_SPREAD windSpeed
        windDir t point actualNeighbor = baseEffectiveCriticality actualNeighbor.K t := by
      unfold finalEffectiveCriticality
      cases windDir with
      | none =>
        dsimp only
        rw [if_neg hg]
      | some d =>
        dsimp only
        rw [if_neg hg]
        split_ifs with h1 h2
        · exfalso
          rcases hpath with h | h | ⟨hx, hy⟩
          · exact absurd h1 (not_lt.2 h)
          · cases h
          · rw [hx, hy] at h2
            simp at h2
        · rfl
        · rfl
    rw [hfin]
    exact ⟨hbase, hpos⟩

theorem C10_final_criticality_in_unit_interval_witness :
    (0 : ℚ) ≤ (linePoint 1 1 false 0).K ∧ (linePoint 1 1 false 0).K ≤ 1 ∧
    ((0 : ℚ) ≤ 0 ∨ (none : Option ℚ) = none ∨
        ((linePoint 1 1 false 0).lng = (linePoint 0 1 true 2).lng ∧
          (linePoint 1 1 false 0).lat = (linePoint 0 1 true 2).lat)) ∧
    ¬ (linePoint 1 1 false 0).K * max 0.1 (1 - ((1 : Nat) : ℚ) * 0.003) < 0.525 ∧
    (0 ≤ finalEffectiveCriticality testMath MINIMUM_EFFECTIVE_CRITICALITY_FOR_SPREAD 0
          none 1 (linePoint 0 1 true 2) (linePoint 1 1 false 0) ∧
      finalEffectiveCriticality testMath MINIMUM_EFFECTIVE_CRITICALITY_FOR_SPREAD 0
          none 1 (linePoint 0 1 true 2) (linePoint 1 1 false 0) ≤ 1) ∧
    (finalEffectiveCriticality testMath MINIMUM_EFFECTIVE_CRITICALITY_FOR_SPREAD 0
          none 1 (linePoint 0 1 true 2) (linePoint 1 1 false 0)
        = (linePoint 1 1 false 0).K * max 0.1 (1 - ((1 : Nat) : ℚ) * 0.003) ∧
      0 < finalEffectiveCriticality testMath MINIMUM_EFFECTIVE_CRITICALITY_FOR_SPREAD 0
          none 1 (linePoint 0 1 true 2) (linePoint 1 1 false 0)) :=
  ⟨by decide!, by decide!, Or.inl (le_refl _), by decide!,
    (C10_final_criticality_in_unit_interval testMath 0 none 1 (linePoint 0 1 true 2)
      (linePoint 1 1 false 0) (by decide!) (by decide!)).1,
    (C10_final_criticality_in_unit_interval testMath 0 none 1 (linePoint 0 1 true 2)
      (linePoint 1 1 false 0) (by decide!) (by decide!)).2 (Or.inl (le_refl _))
      (by decide!)⟩

end FinalCriticality

section Frame

variable {α : Type} [LinearOrderedField α] [FloorRing α]

omit [LinearOrderedField α] [FloorRing α] in
theorem igniteIf_burnDown_frame (l : List Nat) (j : Nat) (p : CriticalityPoint α) :
    (igniteIf l j (burnDown p)).id = p.id ∧ (igniteIf l j (burnDown p)).lat = p.lat ∧
    (igniteIf l j (burnDown p)).lng = p.lng ∧ (igniteIf l j (burnDown p)).K = p.K := by
  unfold igniteIf burnDown
  split_ifs <;> exact ⟨rfl, rfl, rfl, rfl⟩

/-- C11: `runFireSimulationStep` changes only the burn state and
`burnTimeRemaining` of points: after the step the field has the same number of
points, and the points carry, position by position, the same `id`, `lat`, `lng`
and `K` as before, for every field, wind, index and random draws. -/
theorem C11_step_frame (M : JsMath α) (draws : Nat → α) (s : SimState α) :
    (runFireSimulationStep M draws s).criticalityPoints.length = s.criticalityPoints.length ∧
    (runFireSimulationStep M draws s).criticalityPoints.map
        (fun p => (p.id, p.lat, p.lng, p.K))
      = s.criticalityPoints.map (fun p => (p.id, p.lat, p.lng, p.K)) := by
  have h : (runFireSimulationStep M draws s).criticalityPoints.map
        (fun p => (p.id, p.lat, p.lng, p.K))
      = s.criticalityPoints.map (fun p => (p.id, p.lat, p.lng, p.K)) := by
    apply List.ext_getElem?
    intro j
    unfold runFireSimulationStep
    rw [List.getElem?_map, List.getElem?_map, step_points]
    cases s.criticalityIndex with
    | none => rfl
    | some within =>
      cases s.criticalityPoints[j]? with
      | none => rfl
      | some p =>
        obtain ⟨h1, h2, h3, h4⟩ := igniteIf_burnDown_frame
          (burnPass M MINIMUM_EFFECTIVE_CRITICALITY_FOR_SPREAD draws within s
            (s.currentSimulationTimeStep + 1)).newFiresThisStep j p
        simp only [Option.map_some', h1, h2, h3, h4]
  refine ⟨?_, h⟩
  have := congrArg List.length h
  simpa using this

end Frame

section Seeding

variable {α : Type}

theorem startFireAtPoint_some (pts : List (CriticalityPoint α)) (j : Nat) :
    startFireAtPoint pts (some j) = ignitePoint pts j := rfl

theorem take_min_length {β : Type} (k : Nat) (l : List β) :
    l.take (min k l.length) = l.take k := by
  rcases Nat.le_total k l.length with h | h
  · rw [Nat.min_eq_left h]
  · rw [Nat.min_eq_right h, List.take_of_length_le (Nat.le_refl _), List.take_of_length_le h]

/-- The seeding loop of lines 521-523 ignites, in order, the first `m` references
of `shuffledPoints` and counts them. -/
theorem seeding_eq (shuffled : List Nat) (m : Nat) (hm : m ≤ shuffled.length)
    (pts : List (CriticalityPoint α)) (c : Nat) :
    (List.range m).foldl
      (fun (st : List (CriticalityPoint α) × Nat) i =>
        (startFireAtPoint st.1 shuffled[i]?, st.2 + 1)) (pts, c)
      = ((shuffled.take m).foldl ignitePoint pts, c + m) := by
  induction m with
  | zero => rfl
  | succ m ih =>
    have hlt : m < shuffled.length := hm
    rw [List.range_succ, List.foldl_append, ih (Nat.le_of_lt hlt), List.take_succ]
    simp only [List.foldl_cons, List.foldl_nil, List.getElem?_eq_getElem hlt, Option.toList,
      List.foldl_append, startFireAtPoint_some, Nat.add_assoc]

theorem countP_set_burning {β : Type} (q : β → Bool) (l : List β) (j : Nat) (p a : β)
    (hj : l[j]? = some p) (hp : q p = false) (ha : q a = true) :
    (l.set j a).countP q = l.countP q + 1 := by
  induction l generalizing j with
  | nil => simp at hj
  | cons b l ih =>
    cases j with
    | zero =>
      simp only [List.getElem?_cons_zero, Option.some.injEq] at hj
      subst hj
      simp [List.countP_cons, hp, ha]
    | succ j =>
      simp only [List.getElem?_cons_succ] at hj
      simp only [List.set_cons_succ, List.countP_cons, ih j hj]
      omega

theorem countP_foldl_ignitePoint (T : List Nat) (pts : List (CriticalityPoint α))
    (hnd : T.Nodup)
    (hu : ∀ j ∈ T, ∃ p, pts[j]? = some p ∧ p.isBurning = false ∧ p.isBurntOut = false) :
    (T.foldl ignitePoint pts).countP (fun p => p.isBurning)
      = pts.countP (fun p => p.isBurning) + T.length := by
  induction T generalizing pts with
  | nil => rfl
  | cons a T ih =>
    obtain ⟨p, hp, hb, hbo⟩ := hu a (List.mem_cons_self a T)
    have hstep : ignitePoint pts a
        = pts.set a { p with isBurning := true,
                             burnTimeRemaining := MAX_BURN_DURATION_STEPS } := by
      unfold ignitePoint
      simp only [hp, hb, hbo, and_self, if_true]
    rw [List.foldl_cons, ih _ (List.nodup_cons.1 hnd).2, hstep,
      countP_set_burning (fun p => p.isBurning) pts a p _ hp hb rfl, List.length_cons]
    · omega
    · intro j hj
      have hne : a ≠ j := fun h => (List.nodup_cons.1 hnd).1 (h ▸ hj)
      rw [hstep, List.getElem?_set_ne hne]
      exact hu j (List.mem_cons_of_mem a hj)

/-- The field after a start that passes its guards, when the seeding loop ran at
least once: the reset points with the first `INITIAL_FIRE_STARTS` references of
`shuffledPoints` ignited. -/
theorem startSimulation_points (shuffled : List Nat) (s : SimState α)
    (hidle : s.simulationInterval = false) (hdata : 1 ≤ s.criticalityPoints.length)
    (hidx : s.criticalityIndex.isSome = true) (hsh : 1 ≤ shuffled.length) :
    startSimulation shuffled s
      = { s with
          currentSimulationTimeStep := 0
          criticalityPoints := (shuffled.take INITIAL_FIRE_STARTS).foldl ignitePoint
            (s.criticalityPoints.map fun p =>
              { p with isBurning := false, isBurntOut := false, burnTimeRemaining := 0 })
          simulationInterval := true } := by
  have hlen : ¬ s.criticalityPoints.length = 0 := by omega
  have hnone : ¬ s.criticalityIndex.isNone = true := by
    cases h : s.criticalityIndex <;> simp_all
  unfold startSimulation
  rw [if_neg (by simp [hidle]), if_neg hlen, if_neg hnone]
  dsimp only
  rw [seeding_eq shuffled _ (Nat.min_le_right _ _), take_min_length]
  have hpos : ¬ (0 + min INITIAL_FIRE_STARTS shuffled.length = 0
      ∧ s.criticalityPoints.length > 0) := by
    unfold INITIAL_FIRE_STARTS
    omega
  rw [if_neg hpos]

end Seeding

section StartClaims

variable {α : Type}

theorem ignitePoint_length (pts : List (CriticalityPoint α)) (j : Nat) :
    (ignitePoint pts j).length = pts.length := by
  unfold ignitePoint
  split
  · rfl
  · split_ifs
    · rw [List.length_set]
    · rfl

theorem foldl_ignitePoint_length (T : List Nat) (pts : List (CriticalityPoint α)) :
    (T.foldl ignitePoint pts).length = pts.length := by
  induction T generalizing pts with
  | nil => rfl
  | cons a T ih => rw [List.foldl_cons, ih, ignitePoint_length]

/-- C12: when the controller is not running, the field has `n ≥ 1` points and the
spatial index is built, `startSimulation` sets the clock to 0 and, for every order
the random sort produces (any permutation of the references into the field) and
whatever the previous states, leaves the first `min(INITIAL_FIRE_STARTS, n)`
references of that order, which are distinct, Burning with `burnTimeRemaining = 5`
and every other point Unburnt with `burnTimeRemaining = 0`; so exactly
`min(3, n)` points are Burning, and at least one is. -/
theorem C12_start_seeds_fires (shuffled : List Nat) (s : SimState α)
    (hidle : s.simulationInterval = false) (hdata : 1 ≤ s.criticalityPoints.length)
    (hidx : s.criticalityIndex.isSome = true)
    (hperm : shuffled.Perm (List.range s.criticalityPoints.length)) :
    (startSimulation shuffled s).currentSimulationTimeStep = 0 ∧
    (startSimulation shuffled s).criticalityPoints.length = s.criticalityPoints.length ∧
    (shuffled.take INITIAL_FIRE_STARTS).Nodup ∧
    (shuffled.take INITIAL_FIRE_STARTS).length = min 3 s.criticalityPoints.length ∧
    (∀ (j : Nat) (p' : CriticalityPoint α),
      (startSimulation shuffled s).criticalityPoints[j]? = some p' →
        (j ∈ shuffled.take INITIAL_FIRE_STARTS →
          p'.state = BurnState.Burning ∧ p'.burnTimeRemaining = 5) ∧
        (j ∉ shuffled.take INITIAL_FIRE_STARTS →
          p'.state = BurnState.Unburnt ∧ p'.burnTimeRemaining = 0)) ∧
    ((startSimulation shuffled s).criticalityPoints.filter fun p => p.isBurning).length
      = min 3 s.criticalityPoints.length ∧
    ∃ p ∈ (startSimulation shuffled s).criticalityPoints, p.state = BurnState.Burning := by
  have hlen : shuffled.length = s.criticalityPoints.length := by
    rw [hperm.length_eq, List.length_range]
  have hnd : (shuffled.take INITIAL_FIRE_STARTS).Nodup :=
    ((hperm.nodup_iff).2 (List.nodup_range _)).sublist (List.take_sublist _ _)
  have htl : (shuffled.take INITIAL_FIRE_STARTS).length = min 3 s.criticalityPoints.length := by
    rw [List.length_take, hlen]
    rfl
  have hcount : ((startSimulation shuffled s).criticalityPoints.filter
      fun p => p.isBurning).length = min 3 s.criticalityPoints.length := by
    rw [startSimulation_points shuffled s hidle hdata hidx (by omega)]
    dsimp only
    rw [← List.countP_eq_length_filter, countP_foldl_ignitePoint _ _ hnd, htl]
    · have h0 : (s.criticalityPoints.map fun p =>
          { p with isBurning := false, isBurntOut := false,
                   burnTimeRemaining := 0 }).countP (fun p => p.isBurning) = 0 := by
        rw [List.countP_eq_zero]
        intro a ha
        obtain ⟨r, -, hr⟩ := List.mem_map.1 ha
        subst hr
        simp
      rw [h0, Nat.zero_add]
    · intro j hj
      have hjn : j < s.criticalityPoints.length := by
        have := (hperm.mem_iff).1 (List.mem_of_mem_take hj)
        exact List.mem_range.1 this
      rw [List.getElem?_map, List.getElem?_eq_getElem hjn]
      exact ⟨_, rfl, rfl, rfl⟩
  refine ⟨?_, ?_, hnd, htl, ?_, hcount, ?_⟩
  · rw [startSimulation_points shuffled s hidle hdata hidx (by omega)]
  · rw [startSimulation_points shuffled s hidle hdata hidx (by omega)]
    dsimp only
    rw [foldl_ignitePoint_length, List.length_map]
  · intro j p' hp'
    rw [startSimulation_points shuffled s hidle hdata hidx (by omega)] at hp'
    dsimp only at hp'
    rw [foldl_ignitePoint_getElem?, List.getElem?_map] at hp'
    cases hp : s.criticalityPoints[j]? with
    | none => simp [hp] at hp'
    | some p =>
      simp only [hp, Option.map_some', Option.some.injEq] at hp'
      subst hp'
      constructor
      · intro hj
        simp [igniteIf, hj, CriticalityPoint.state, MAX_BURN_DURATION_STEPS]
      · intro hj
        simp [igniteIf, hj, CriticalityPoint.state]
  · have hpos : 0 < (startSimulation shuffled s).criticalityPoints.countP
        (fun p => p.isBurning) := by
      rw [List.countP_eq_length_filter, hcount]
      omega
    obtain ⟨p, hp, hb⟩ := List.countP_pos_iff.1 hpos
    exact ⟨p, hp, (state_eq_burning_iff p).2 hb⟩

theorem C12_start_seeds_fires_witness :
    idleLineState.simulationInterval = false ∧ 1 ≤ idleLineState.criticalityPoints.length ∧
    idleLineState.criticalityIndex.isSome = true ∧
    [2, 0, 1, 3, 4].Perm (List.range idleLineState.criticalityPoints.length) ∧
    (startSimulation [2, 0, 1, 3, 4] idleLineState).currentSimulationTimeStep = 0 ∧
    ((startSimulation [2, 0, 1, 3, 4] idleLineState).criticalityPoints.filter
      fun p => p.isBurning).length = min 3 idleLineState.criticalityPoints.length :=
  ⟨rfl, by decide, rfl, by decide,
    (C12_start_seeds_fires [2, 0, 1, 3, 4] idleLineState rfl (by decide) rfl (by decide)).1,
    (C12_start_seeds_fires [2, 0, 1, 3, 4] idleLineState rfl (by decide) rfl
      (by decide)).2.2.2.2.2.1⟩

/-- C13: `startSimulation` changes nothing when the point field is empty or the
spatial index is missing: the whole state is returned as it was, so a controller
that is Idle stays Idle (no timer is installed), the clock keeps its value and
every point keeps its state and `burnTimeRemaining` (no reset, no seeding). -/
theorem C13_start_refused (shuffled : List Nat) (s : SimState α)
    (h : s.criticalityPoints = [] ∨ s.criticalityIndex = none) :
    startSimulation shuffled s = s ∧
    (s.simulationInterval = false →
      (startSimulation shuffled s).simulationInterval = false) ∧
    (startSimulation shuffled s).currentSimulationTimeStep = s.currentSimulationTimeStep ∧
    (startSimulation shuffled s).criticalityPoints = s.criticalityPoints := by
  have heq : startSimulation shuffled s = s := by
    unfold startSimulation
    split_ifs with h1 h2 h3
    · rfl
    · rfl
    · rfl
    · exfalso
      rcases h with h | h
      · exact h2 (by rw [h]; rfl)
      · exact h3 (by rw [h]; rfl)
  rw [heq]
  exact ⟨rfl, id, rfl, rfl⟩

theorem C13_start_refused_witness :
    (({ idleLineState with criticalityIndex := none } : SimState ℚ).criticalityPoints = [] ∨
      ({ idleLineState with criticalityIndex := none } : SimState ℚ).criticalityIndex = none) ∧
    (startSimulation [2, 0, 1, 3, 4] { idleLineState with criticalityIndex := none }).simulationInterval
      = false ∧
    (startSimulation [2, 0, 1, 3, 4]
        { idleLineState with criticalityIndex := none }).criticalityPoints
      = idleLineState.criticalityPoints :=
  ⟨Or.inr rfl,
    (C13_start_refused [2, 0, 1, 3, 4] { idleLineState with criticalityIndex := none }
      (Or.inr rfl)).2.1 rfl,
    (C13_start_refused [2, 0, 1, 3, 4] { idleLineState with criticalityIndex := none }
      (Or.inr rfl)).2.2.2⟩

end StartClaims

section Ingestion

variable {α : Type} [LinearOrderedField α]

/-- What the `map` callback returns for a row it keeps. -/
theorem rowToPoint_eq_some (row : Row α) (index : Nat) (p : CriticalityPoint α)
    (h : rowToPoint row index = some p) :
    ∃ lat lng k, row.lat = some lat ∧ row.long = some lng ∧ row.K = some k ∧
      p = { id := index, lat := lat, lng := lng, K := max 0 (min 1 k),
            isBurning := false, burnTimeRemaining := 0, isBurntOut := false } := by
  unfold rowToPoint at h
  split at h
  · rename_i lat lng k h1 h2 h3
    exact ⟨lat, lng, k, h1, h2, h3, (Option.some.inj h).symm⟩
  · cases h

theorem clamp_eq (k : α) :
    max 0 (min 1 k) = (if k < 0 then 0 else if 1 < k then 1 else k) ∧
    0 ≤ max 0 (min 1 k) ∧ max 0 (min 1 k) ≤ 1 := by
  refine ⟨?_, le_max_left _ _, max_le zero_le_one (min_le_left _ _)⟩
  split_ifs with h1 h2
  · exact max_eq_left (le_trans (min_le_right _ _) (le_of_lt h1))
  · rw [min_eq_left (le_of_lt h2)]
    exact max_eq_right zero_le_one
  · rw [min_eq_right (not_lt.1 h2)]
    exact max_eq_right (not_lt.1 h1)

/-- The ingestion of a list whose row numbers start at `k`, row by row. -/
theorem ingest_cons (k : Nat) (row : Row α) (rows : List (Row α)) :
    ((row :: rows).mapIdx fun index r => rowToPoint r (index + k)).reduceOption
      = (rowToPoint row k).toList
        ++ (rows.mapIdx fun index r => rowToPoint r (index + (k + 1))).reduceOption := by
  rw [List.mapIdx_cons]
  have hf : (fun i r => rowToPoint (α := α) r (i + 1 + k))
      = fun index r => rowToPoint r (index + (k + 1)) := by
    funext i r
    rw [Nat.add_assoc, Nat.add_comm 1 k]
  simp only [hf, Nat.zero_add]
  cases rowToPoint row k with
  | none => rw [List.reduceOption_cons_of_none]; rfl
  | some p => rw [List.reduceOption_cons_of_some]; rfl

theorem ingestRows_eq (rows : List (Row α)) :
    ingestRows rows = (rows.mapIdx fun index r => rowToPoint r (index + 0)).reduceOption :=
  rfl

/-- The ids of the ingested points are row numbers: at least the position plus the
first row number, strictly increasing, and exactly the position plus the first row
number when every row is numeric. -/
theorem ingest_ids (rows : List (Row α)) (k : Nat) :
    (∀ p ∈ (rows.mapIdx fun index r => rowToPoint r (index + k)).reduceOption, k ≤ p.id) ∧
    List.Pairwise (fun p q : CriticalityPoint α => p.id < q.id)
      (rows.mapIdx fun index r => rowToPoint r (index + k)).reduceOption ∧
    (∀ (i : Nat) (p : CriticalityPoint α),
      (rows.mapIdx fun index r => rowToPoint r (index + k)).reduceOption[i]? = some p →
        i + k ≤ p.id) ∧
    ((∀ row ∈ rows, row.lat.isSome = true ∧ row.long.isSome = true ∧ row.K.isSome = true) →
      ∀ (i : Nat) (p : CriticalityPoint α),
        (rows.mapIdx fun index r => rowToPoint r (index + k)).reduceOption[i]? = some p →
          p.id = i + k) := by
  induction rows generalizing k with
  | nil => simp
  | cons row rows ih =>
    obtain ⟨ih1, ih2, ih3, ih4⟩ := ih (k + 1)
    rw [ingest_cons]
    cases hr : rowToPoint row k with
    | none =>
      simp only [Option.toList, List.nil_append]
      refine ⟨fun p hp => Nat.le_of_succ_le (ih1 p hp), ih2, ?_, ?_⟩
      · intro i p hp
        have := ih3 i p hp
        omega
      · intro hall
        exfalso
        obtain ⟨h1, h2, h3⟩ := hall row (List.mem_cons_self _ _)
        unfold rowToPoint at hr
        cases hl : row.lat <;> cases hg : row.long <;> cases hk : row.K <;> simp_all
    | some p0 =>
      have hid : p0.id = k := by
        obtain ⟨lat, lng, kk, -, -, -, hp0⟩ := rowToPoint_eq_some row k p0 hr
        rw [hp0]
      simp only [Option.toList, List.singleton_append]
      refine ⟨?_, ?_, ?_, ?_⟩
      · intro p hp
        rcases List.mem_cons.1 hp with h | h
        · rw [h, hid]
        · exact Nat.le_of_succ_le (ih1 p h)
      · rw [List.pairwise_cons]
        refine ⟨fun q hq => ?_, ih2⟩
        have := ih1 q hq
        omega
      · intro i p hp
        cases i with
        | zero =>
          simp only [List.getElem?_cons_zero, Option.some.injEq] at hp
          rw [← hp, hid]
          omega
        | succ i =>
          simp only [List.getElem?_cons_succ] at hp
          have := ih3 i p hp
          omega
      · intro hall i p hp
        cases i with
        | zero =>
          simp only [List.getElem?_cons_zero, Option.some.injEq] at hp
          rw [← hp, hid]
          omega
        | succ i =>
          simp only [List.getElem?_cons_succ] at hp
          have := ih4 (fun r hr => hall r (List.mem_cons_of_mem _ hr)) i p hp
          omega

/-- Every ingested point comes from a numeric row and carries its row number. -/
theorem mem_ingestRows (rows : List (Row α)) (p : CriticalityPoint α)
    (hp : p ∈ ingestRows rows) :
    ∃ (i : Nat) (row : Row α), rows[i]? = some row ∧ rowToPoint row i = some p := by
  unfold ingestRows at hp
  rw [List.reduceOption_mem_iff, List.mem_mapIdx] at hp
  obtain ⟨i, hi, h⟩ := hp
  exact ⟨i, rows[i], List.getElem?_eq_getElem hi, h⟩

/-- C14: every point produced by ingestion has `K` in `[0,1]`: it comes from a row
with numeric fields whose `K` is kept when already in `[0,1]`, becomes 0 when below
0 and 1 when above 1, and it starts Unburnt with `burnTimeRemaining` 0; and every
row with numeric `lat`, `long` and `K` produces such a point. -/
theorem C14_ingested_criticality_clamped (rows : List (Row α)) :
    (∀ p ∈ ingestRows rows,
      0 ≤ p.K ∧ p.K ≤ 1 ∧ p.state = BurnState.Unburnt ∧ p.burnTimeRemaining = 0 ∧
      ∃ (i : Nat) (row : Row α) (k : α), rows[i]? = some row ∧ row.K = some k ∧
        p.K = (if k < 0 then 0 else if 1 < k then 1 else k)) ∧
    (∀ (i : Nat) (row : Row α) (a b k : α), rows[i]? = some row →
      row.lat = some a → row.long = some b → row.K = some k →
      ∃ p ∈ ingestRows rows, p.lat = a ∧ p.lng = b ∧
        p.K = (if k < 0 then 0 else if 1 < k then 1 else k)) := by
  constructor
  · intro p hp
    obtain ⟨i, row, hrow, hpt⟩ := mem_ingestRows rows p hp
    obtain ⟨lat, lng, k, -, -, hk, hpe⟩ := rowToPoint_eq_some row i p hpt
    obtain ⟨hc, h0, h1⟩ := clamp_eq k
    subst hpe
    exact ⟨h0, h1, rfl, rfl, i, row, k, hrow, hk, hc⟩
  · intro i row a b k hrow ha hb hk
    have hi : i < rows.length := (List.getElem?_eq_some_iff.1 hrow).1
    have hri : rows[i] = row := (List.getElem?_eq_some_iff.1 hrow).2
    refine ⟨{ id := i, lat := a, lng := b, K := max 0 (min 1 k), isBurning := false,
              burnTimeRemaining := 0, isBurntOut := false }, ?_, rfl, rfl, (clamp_eq k).1⟩
    unfold ingestRows
    rw [List.reduceOption_mem_iff, List.mem_mapIdx]
    refine ⟨i, hi, ?_⟩
    rw [hri]
    unfold rowToPoint
    simp only [ha, hb, hk]

theorem C14_ingested_criticality_clamped_witness :
    ([⟨some 0, some 0, some 7⟩, ⟨none, some 0, some 1⟩, ⟨some 0, some 1, some (-2)⟩] :
        List (Row ℚ))[0]? = some ⟨some 0, some 0, some 7⟩ ∧
    ∃ p ∈ ingestRows ([⟨some 0, some 0, some 7⟩, ⟨none, some 0, some 1⟩,
        ⟨some 0, some 1, some (-2)⟩] : List (Row ℚ)),
      p.lat = 0 ∧ p.lng = 0 ∧ p.K = (if (7 : ℚ) < 0 then 0 else if (1 : ℚ) < 7 then 1 else 7) :=
  ⟨rfl, (C14_ingested_criticality_clamped _).2 0 _ 0 0 7 rfl rfl rfl rfl⟩

/-- Counterexample to C15 as stated: when the first row is dropped (its `lat` is
not a number) the point kept from the second row sits at position 0 of the field
and has id 1. -/
theorem C15_counterexample_dropped_row :
    ((ingestRows ([⟨none, some 0, some 1⟩, ⟨some 0, some 0, some (1 / 2)⟩] :
        List (Row ℚ)))[0]?).map (fun p => p.id) = some 1 := by
  decide!

/-- C15 (amended): after ingestion the id of a point is the number of its input row
(the row at that number is the one the point was made from): ids are strictly
increasing along the field, so two positions hold the same id only
when they are the same position (the id comparisons of the self-match and duplicate
checks agree with the positions the spatial query returns); the id at position `i`
is at least `i`, and it is exactly `i` at every position when no row was dropped. -/
theorem C15_ids_are_row_numbers (rows : List (Row α)) :
    (∀ p ∈ ingestRows rows, ∃ row : Row α, rows[p.id]? = some row ∧
      rowToPoint row p.id = some p) ∧
    List.Pairwise (fun p q : CriticalityPoint α => p.id < q.id) (ingestRows rows) ∧
    (∀ (i j : Nat) (p q : CriticalityPoint α), (ingestRows rows)[i]? = some p →
      (ingestRows rows)[j]? = some q → (p.id = q.id ↔ i = j)) ∧
    (∀ (i : Nat) (p : CriticalityPoint α), (ingestRows rows)[i]? = some p → i ≤ p.id) ∧
    ((∀ row ∈ rows, row.lat.isSome = true ∧ row.long.isSome = true ∧ row.K.isSome = true) →
      ∀ (i : Nat) (p : CriticalityPoint α), (ingestRows rows)[i]? = some p → p.id = i) := by
  obtain ⟨-, h2, h3, h4⟩ := ingest_ids rows 0
  rw [← ingestRows_eq] at h2 h3 h4
  have hlt : ∀ (i j : Nat) (p q : CriticalityPoint α), (ingestRows rows)[i]? = some p →
      (ingestRows rows)[j]? = some q → i < j → p.id < q.id := by
    intro i j p q hp hq hij
    obtain ⟨hi, rfl⟩ := List.getElem?_eq_some_iff.1 hp
    obtain ⟨hj, rfl⟩ := List.getElem?_eq_some_iff.1 hq
    exact List.pairwise_iff_getElem.1 h2 i j hi hj hij
  have hrow : ∀ p ∈ ingestRows rows, ∃ row : Row α, rows[p.id]? = some row ∧
      rowToPoint row p.id = some p := by
    intro p hp
    obtain ⟨i, row, hrow, hpt⟩ := mem_ingestRows rows p hp
    obtain ⟨lat, lng, k, -, -, -, hpe⟩ := rowToPoint_eq_some row i p hpt
    have hid : p.id = i := by rw [hpe]
    rw [hid]
    exact ⟨row, hrow, hpt⟩
  refine ⟨hrow, h2, ?_, fun i p hp => by simpa using h3 i p hp, fun hall i p hp => by
    simpa using h4 hall i p hp⟩
  intro i j p q hp hq
  constructor
  · intro hid
    rcases Nat.lt_trichotomy i j with h | h | h
    · have := hlt i j p q hp hq h
      omega
    · exact h
    · have := hlt j i q p hq hp h
      omega
  · intro hij
    subst hij
    rw [hp] at hq
    cases hq
    rfl

theorem C15_ids_are_row_numbers_witness :
    (∀ row ∈ ([⟨some 0, some 0, some 1⟩, ⟨some 0, some 1, some (1 / 2)⟩] : List (Row ℚ)),
      row.lat.isSome = true ∧ row.long.isSome = true ∧ row.K.isSome = true) ∧
    ∀ (i : Nat) (p : CriticalityPoint ℚ),
      (ingestRows ([⟨some 0, some 0, some 1⟩, ⟨some 0, some 1, some (1 / 2)⟩] :
        List (Row ℚ)))[i]? = some p → p.id = i :=
  ⟨by decide, (C15_ids_are_row_numbers _).2.2.2.2 (by decide)⟩

end Ingestion

section RunBound

variable {α : Type} [LinearOrderedField α] [FloorRing α]

omit [FloorRing α] in
/-- From step 159 on the decayed base criticality of a point with `K ≤ 1` is below
the spread threshold. -/
theorem baseEffectiveCriticality_lt_of_late (K : α) (t : Nat) (hK : K ≤ 1) (ht : 159 ≤ t) :
    baseEffectiveCriticality K t < MINIMUM_EFFECTIVE_CRITICALITY_FOR_SPREAD := by
  unfold baseEffectiveCriticality MINIMUM_EFFECTIVE_CRITICALITY_FOR_SPREAD
  have htc : (159 : α) ≤ (t : α) := by exact_mod_cast ht
  have hm0 : (0 : α) < max 0.1 (1 - (t : α) * 0.003) :=
    lt_of_lt_of_le (by norm_num) (le_max_left _ _)
  have hm1 : max 0.1 (1 - (t : α) * 0.003) < (0.525 : α) := by
    apply max_lt
    · norm_num
    · have : (159 : α) * 0.003 ≤ (t : α) * 0.003 :=
        mul_le_mul_of_nonneg_right htc (by norm_num)
      have h2 : (159 : α) * 0.003 = 0.477 := by norm_num
      have h3 : (1 : α) - 0.477 < 0.525 := by norm_num
      linarith
  calc K * max 0.1 (1 - (t : α) * 0.003)
      ≤ 1 * max 0.1 (1 - (t : α) * 0.003) := mul_le_mul_of_nonneg_right hK (le_of_lt hm0)
    _ = max 0.1 (1 - (t : α) * 0.003) := one_mul _
    _ < 0.525 := hm1

theorem step_index (M : JsMath α) (minCrit : α) (draws : Nat → α) (s : SimState α) :
    (runFireSimulationStepWith M minCrit draws s).criticalityIndex = s.criticalityIndex := by
  unfold runFireSimulationStepWith
  split
  · rfl
  · dsimp only
    split_ifs <;> rfl

omit [LinearOrderedField α] [FloorRing α] in
theorem burnTimeCap_succ (t : Nat) (b : Int) (h : b ≤ burnTimeCap t) :
    b - 1 ≤ burnTimeCap (t + 1) := by
  unfold burnTimeCap MAX_BURN_DURATION_STEPS at *
  split_ifs at h ⊢ <;> omega

/-- No reference is nominated by a step numbered 159 or more when every
criticality is at most 1. -/
theorem burnPass_newFires_eq_nil_of_late (M : JsMath α) (draws : Nat → α)
    (within : α → α → α → List Nat) (s : SimState α) (t : Nat)
    (hK : ∀ p ∈ s.criticalityPoints, p.K ≤ 1) (ht : 159 ≤ t) :
    (burnPass M MINIMUM_EFFECTIVE_CRITICALITY_FOR_SPREAD draws within s t).newFiresThisStep
      = [] := by
  rw [List.eq_nil_iff_forall_not_mem]
  intro j hj
  obtain ⟨i, q, p, -, -, -, -, hp, -, -, -, hfin⟩ := burnPass_newFires _ _ _ _ _ _ _ hj
  have hlt := baseEffectiveCriticality_lt_of_late p.K t
    (hK p (List.mem_iff_getElem?.2 ⟨j, hp⟩)) ht
  rw [finalEffectiveCriticality_of_below _ _ _ _ _ _ _ hlt] at hfin
  exact lt_irrefl _ hfin

omit [FloorRing α] in
theorem runInvariant_clock_lt (s : SimState α) (h : RunInvariant s)
    (hrun : s.simulationInterval = true) : s.currentSimulationTimeStep ≤ 162 := by
  obtain ⟨-, -, hc, -, hd⟩ := h
  rcases hd hrun with h0 | ⟨p, hp, hb⟩
  · omega
  · have := hc p hp hb
    unfold burnTimeCap MAX_BURN_DURATION_STEPS at this
    split_ifs at this <;> omega

/-- One tick of a running controller keeps the run invariant. -/
theorem step_preserves_runInvariant (M : JsMath α) (draws : Nat → α) (s : SimState α)
    (h : RunInvariant s) (hrun : s.simulationInterval = true) :
    RunInvariant (runFireSimulationStep M draws s) := by
  have hclock := runInvariant_clock_lt s h hrun
  obtain ⟨ha, hb, hc, he, hd⟩ := h
  obtain ⟨within, hidx⟩ := Option.isSome_iff_exists.1 ha
  obtain ⟨hi1, -, hi3⟩ :=
    step_interval M MINIMUM_EFFECTIVE_CRITICALITY_FOR_SPREAD draws s within hidx
  have hpt : ∀ p' ∈ (runFireSimulationStep M draws s).criticalityPoints,
      ∃ (j : Nat) (p : CriticalityPoint α), s.criticalityPoints[j]? = some p ∧
        p' = igniteIf (burnPass M MINIMUM_EFFECTIVE_CRITICALITY_FOR_SPREAD draws within s
          (s.currentSimulationTimeStep + 1)).newFiresThisStep j (burnDown p) := by
    intro p' hp'
    obtain ⟨j, hj⟩ := List.mem_iff_getElem?.1 hp'
    unfold runFireSimulationStep at hj
    rw [step_points, hidx] at hj
    cases hp : s.criticalityPoints[j]? with
    | none => simp [hp] at hj
    | some p =>
      simp only [hp, Option.map_some', Option.some.injEq] at hj
      exact ⟨j, p, hp, hj.symm⟩
  refine ⟨?_, ?_, ?_, ?_, ?_⟩
  · unfold runFireSimulationStep
    rw [step_index]
    exact ha
  · intro p' hp'
    obtain ⟨j, p, hp, rfl⟩ := hpt p' hp'
    rw [(igniteIf_burnDown_frame _ j p).2.2.2]
    exact hb p (List.mem_iff_getElem?.2 ⟨j, hp⟩)
  · intro p' hp' hburn
    obtain ⟨j, p, hp, rfl⟩ := hpt p' hp'
    have hclk : (runFireSimulationStep M draws s).currentSimulationTimeStep
        = s.currentSimulationTimeStep + 1 := hi3
    rw [hclk]
    have hpm : p ∈ s.criticalityPoints := List.mem_iff_getElem?.2 ⟨j, hp⟩
    unfold igniteIf at hburn ⊢
    split_ifs at hburn ⊢ with hj
    · have hearly : s.currentSimulationTimeStep + 1 ≤ 158 := by
        by_contra hlate
        have hnil := burnPass_newFires_eq_nil_of_late M draws within s
          (s.currentSimulationTimeStep + 1) hb (by omega)
        rw [hnil] at hj
        exact absurd hj.1 (List.not_mem_nil _)
      simp only [burnTimeCap, MAX_BURN_DURATION_STEPS, hearly, if_true]
      omega
    · unfold burnDown at hburn ⊢
      by_cases h2 : p.isBurning = true
      · have hr := hc p hpm h2
        rw [if_pos h2] at hburn ⊢
        by_cases h3 : p.burnTimeRemaining - 1 ≤ 0
        · rw [if_pos h3] at hburn
          simp at hburn
        · rw [if_neg h3]
          exact ⟨by simp only; omega, burnTimeCap_succ _ _ hr.2⟩
      · rw [if_neg h2] at hburn
        exact absurd hburn h2
  · have : (runFireSimulationStep M draws s).currentSimulationTimeStep
        = s.currentSimulationTimeStep + 1 := hi3
    omega
  · intro hrun'
    right
    by_contra hno
    have hall : ∀ p ∈ (runFireSimulationStep M draws s).criticalityPoints,
        p.isBurning = false := by
      intro p hp
      by_contra hpb
      exact hno ⟨p, hp, by simpa using hpb⟩
    have hfalse : (runFireSimulationStep M draws s).simulationInterval = false := hi1 hall
    rw [hrun'] at hfalse
    cases hfalse

end RunBound

section RunStart

variable {α : Type}

theorem startFireAtPoint_K (pts : List (CriticalityPoint α)) (o : Option Nat)
    (p' : CriticalityPoint α) (hp : p' ∈ startFireAtPoint pts o) :
    ∃ p ∈ pts, p'.K = p.K := by
  cases o with
  | none => exact ⟨p', hp, rfl⟩
  | some j =>
    rw [startFireAtPoint_some] at hp
    unfold ignitePoint at hp
    split at hp
    · exact ⟨p', hp, rfl⟩
    · rename_i q hq
      split_ifs at hp
      · rcases List.mem_or_eq_of_mem_set hp with h | h
        · exact ⟨p', h, rfl⟩
        · exact ⟨q, List.mem_iff_getElem?.2 ⟨j, hq⟩, by rw [h]⟩
      · exact ⟨p', hp, rfl⟩

theorem seeding_K (shuffled : List Nat) (n : Nat) (pts : List (CriticalityPoint α))
    (c : Nat) (p' : CriticalityPoint α)
    (hp : p' ∈ ((List.range n).foldl
      (fun (st : List (CriticalityPoint α) × Nat) i =>
        (startFireAtPoint st.1 shuffled[i]?, st.2 + 1)) (pts, c)).1) :
    ∃ p ∈ pts, p'.K = p.K := by
  induction n generalizing p' with
  | zero => exact ⟨p', hp, rfl⟩
  | succ n ih =>
    rw [List.range_succ, List.foldl_append, List.foldl_cons, List.foldl_nil] at hp
    obtain ⟨q, hq, hqk⟩ := startFireAtPoint_K _ _ _ hp
    obtain ⟨p, hpm, hpk⟩ := ih q hq
    exact ⟨p, hpm, hqk.trans hpk⟩

theorem startSimulation_K (shuffled : List Nat) (s : SimState α) (p' : CriticalityPoint α)
    (hp : p' ∈ (startSimulation shuffled s).criticalityPoints) :
    ∃ p ∈ s.criticalityPoints, p'.K = p.K := by
  unfold startSimulation at hp
  split_ifs at hp with h1 h2 h3
  · exact ⟨p', hp, rfl⟩
  · exact ⟨p', hp, rfl⟩
  · exact ⟨p', hp, rfl⟩
  · dsimp only at hp
    have key : ∀ q, q ∈ ((List.range (min INITIAL_FIRE_STARTS shuffled.length)).foldl
        (fun (st : List (CriticalityPoint α) × Nat) i =>
          (startFireAtPoint st.1 shuffled[i]?, st.2 + 1))
        (s.criticalityPoints.map fun p =>
          { p with isBurning := false, isBurntOut := false, burnTimeRemaining := 0 }, 0)).1 →
        ∃ p ∈ s.criticalityPoints, q.K = p.K := by
      intro q hq
      obtain ⟨r, hr, hrk⟩ := seeding_K _ _ _ _ _ hq
      obtain ⟨p, hpm, hpe⟩ := List.mem_map.1 hr
      exact ⟨p, hpm, by rw [hrk, ← hpe]⟩
    split_ifs at hp
    · obtain ⟨q, hq, hqk⟩ := startFireAtPoint_K _ _ _ hp
      obtain ⟨p, hpm, hpk⟩ := key q hq
      exact ⟨p, hpm, hqk.trans hpk⟩
    · exact key p' hp

theorem startSimulation_index_clock (shuffled : List Nat) (s : SimState α)
    (hidle : s.simulationInterval = false) (hdata : s.criticalityPoints ≠ [])
    (hidx : s.criticalityIndex.isSome = true) :
    (startSimulation shuffled s).criticalityIndex = s.criticalityIndex ∧
    (startSimulation shuffled s).currentSimulationTimeStep = 0 := by
  have hlen : ¬ s.criticalityPoints.length = 0 := by
    simpa [List.length_eq_zero] using hdata
  have hnone : ¬ s.criticalityIndex.isNone = true := by
    cases h : s.criticalityIndex <;> simp_all
  unfold startSimulation
  rw [if_neg (by simp [hidle]), if_neg hlen, if_neg hnone]
  exact ⟨rfl, rfl⟩

end RunStart

section RunClaims

variable {α : Type} [LinearOrderedField α] [FloorRing α]

omit [FloorRing α] in
theorem startSimulation_runInvariant (shuffled : List Nat) (s : SimState α)
    (hidle : s.simulationInterval = false) (hdata : s.criticalityPoints ≠ [])
    (hidx : s.criticalityIndex.isSome = true)
    (hK : ∀ p ∈ s.criticalityPoints, p.K ≤ 1) :
    RunInvariant (startSimulation shuffled s) := by
  obtain ⟨h1, h2⟩ := startSimulation_index_clock shuffled s hidle hdata hidx
  refine ⟨by rw [h1]; exact hidx, ?_, ?_, by omega, fun _ => Or.inl h2⟩
  · intro p' hp'
    obtain ⟨p, hp, hk⟩ := startSimulation_K shuffled s p' hp'
    rw [hk]
    exact hK p hp
  · intro p hp hb
    rw [startSimulation_mem shuffled s hidle hdata hidx p hp hb, h2]
    simp [burnTimeCap, MAX_BURN_DURATION_STEPS]

theorem runTimer_runInvariant (M : JsMath α) (ticks : List (Tick α)) (s : SimState α)
    (h : RunInvariant s) : RunInvariant (runTimer M ticks s) := by
  induction ticks generalizing s with
  | nil => exact h
  | cons tk rest ih =>
    unfold runTimer
    split_ifs with hrun
    · have hw : RunInvariant { s with globalWindSpeedMps := tk.windSpeed,
                                      globalWindDirectionDegrees := tk.windDirection } := h
      exact ih _ (step_preserves_runInvariant M tk.draws _ hw hrun)
    · exact h

theorem runTimer_clock (M : JsMath α) (ticks : List (Tick α)) (s : SimState α)
    (h : RunInvariant s) (hrun : (runTimer M ticks s).simulationInterval = true) :
    (runTimer M ticks s).currentSimulationTimeStep
      = s.currentSimulationTimeStep + ticks.length := by
  induction ticks generalizing s with
  | nil => rfl
  | cons tk rest ih =>
    unfold runTimer at hrun ⊢
    split_ifs at hrun ⊢ with hs
    · obtain ⟨within, hidx⟩ := Option.isSome_iff_exists.1 h.1
      have hw : RunInvariant { s with globalWindSpeedMps := tk.windSpeed,
                                      globalWindDirectionDegrees := tk.windDirection } := h
      have hclk := (step_interval M MINIMUM_EFFECTIVE_CRITICALITY_FOR_SPREAD tk.draws
        { s with globalWindSpeedMps := tk.windSpeed,
                 globalWindDirectionDegrees := tk.windDirection } within hidx).2.2
      rw [ih _ (step_preserves_runInvariant M tk.draws _ hw hs) hrun]
      unfold runFireSimulationStep
      rw [hclk, List.length_cons]
      dsimp only
      omega
    · exact absurd hrun hs

/-- C16: every run ends within a fixed number of steps. For a field with
criticalities in `[0,1]`, after a `startSimulation` that passes its guards, whatever
the order of the shuffle, the wind values and the random draws at each tick,
`currentSimulationTimeStep` never exceeds 163 while the timer delivers ticks, and
once 163 ticks have been delivered the controller is Idle (it auto-stopped at a
step numbered at most 163); and in any state of such a field a step whose number is
159 or more leaves every Unburnt point Unburnt. -/
theorem C16_run_ends_by_step_163 (M : JsMath α) (shuffled : List Nat)
    (ticks : List (Tick α)) (s : SimState α)
    (hidle : s.simulationInterval = false) (hdata : s.criticalityPoints ≠ [])
    (hidx : s.criticalityIndex.isSome = true)
    (hK : ∀ p ∈ s.criticalityPoints, 0 ≤ p.K ∧ p.K ≤ 1) :
    (runTimer M ticks (startSimulation shuffled s)).currentSimulationTimeStep ≤ 163 ∧
    (163 ≤ ticks.length →
      (runTimer M ticks (startSimulation shuffled s)).simulationInterval = false) ∧
    (∀ (draws : Nat → α) (s2 : SimState α),
      (∀ p ∈ s2.criticalityPoints, 0 ≤ p.K ∧ p.K ≤ 1) →
      159 ≤ s2.currentSimulationTimeStep + 1 →
      ∀ (j : Nat) (p : CriticalityPoint α), s2.criticalityPoints[j]? = some p →
        p.state = BurnState.Unburnt →
        ∃ p', (runFireSimulationStep M draws s2).criticalityPoints[j]? = some p' ∧
          p'.state = BurnState.Unburnt) := by
  have h0 := startSimulation_runInvariant shuffled s hidle hdata hidx (fun p hp => (hK p hp).2)
  have hinv := runTimer_runInvariant M ticks _ h0
  refine ⟨hinv.2.2.2.1, ?_, ?_⟩
  · intro hlen
    by_contra hrun
    have hrun' : (runTimer M ticks (startSimulation shuffled s)).simulationInterval = true := by
      simpa using hrun
    have h1 := runTimer_clock M ticks _ h0 hrun'
    have h2 := runInvariant_clock_lt _ hinv hrun'
    omega
  · intro draws s2 hK2 hlate j p hp hu
    obtain ⟨hb, hbo⟩ := (state_eq_unburnt_iff p).1 hu
    unfold runFireSimulationStep
    rw [step_points, hp]
    cases hidx2 : s2.criticalityIndex with
    | none => exact ⟨p, rfl, hu⟩
    | some within =>
      refine ⟨_, rfl, ?_⟩
      dsimp only [Option.map_some']
      rw [burnDown_of_not_burning p hb,
        burnPass_newFires_eq_nil_of_late M draws within s2 _
          (fun q hq => (hK2 q hq).2) hlate]
      simpa [igniteIf] using hu

theorem C16_run_ends_by_step_163_witness :
    idleLineState.simulationInterval = false ∧ idleLineState.criticalityPoints ≠ [] ∧
    idleLineState.criticalityIndex.isSome = true ∧
    (∀ p ∈ idleLineState.criticalityPoints, (0 : ℚ) ≤ p.K ∧ p.K ≤ 1) ∧
    (runTimer testMath [⟨0, none, fun _ => 0⟩, ⟨2, some 90, fun _ => 1 / 2⟩]
      (startSimulation [2, 0, 1, 3, 4] idleLineState)).currentSimulationTimeStep ≤ 163 :=
  ⟨rfl, by decide!, rfl, by decide!,
    (C16_run_ends_by_step_163 testMath [2, 0, 1, 3, 4]
      [⟨0, none, fun _ => 0⟩, ⟨2, some 90, fun _ => 1 / 2⟩] idleLineState rfl (by decide!) rfl
      (by decide!)).1⟩

end RunClaims

end AEGIS
